import Mathlib

/-!
# lte-scenario: the throughput sampler and the scenario set-up of `lte.cc`

A shallow embedding of `src/lte.cc`.  The program is glue over a discrete-event
network simulation framework; the embedding keeps the two functions of the file,
`ThroughputMonitor` and `main`, as state transformers over a `World` that holds
the part of the framework state they act on (the event queue, the plot datasets,
the files written, standard output, the nodes, applications and bearers).

Conventions.

* `Time` is the framework's integer count of nanoseconds.
* `double` arithmetic is not fixed: every function takes a `Numerics D` record
  with the operations the source uses, so that the theorems hold for any
  arithmetic, IEEE-754 binary64 included.  `Dbl` is one executable instance,
  used for concrete evaluations.
* `int` variables are mathematical integers: the source never leaves the range
  of `int` for `numberOfUes ≤ 2^31 - 1 - 20000`, and beyond that its behaviour
  is undefined.  Where an `int` is handed to a 16-bit or 32-bit unsigned
  parameter or field of the framework, the conversion is applied (`toUInt16`,
  `toUInt32`).
* What the framework answers when asked (flow statistics, flow classification,
  UE addresses, random start times) is a parameter, the record `Framework`.
-/

namespace LteScenario

/-! ## Value types of the framework -/

/-- Simulation time, in nanoseconds (the framework's default resolution). -/
abbrev Time := Int

/-- Identifier of a flow in the flow monitor. -/
abbrev FlowId := Nat

/-- An IPv4 address as its 32-bit host-order value. -/
abbrev Ipv4Address := Nat

/-- Identifier of a node. -/
abbrev NodeId := Nat

/-- The address written `a.b.c.d` in dotted notation. -/
def ipv4 (a b c d : Nat) : Ipv4Address := a * 2 ^ 24 + b * 2 ^ 16 + c * 2 ^ 8 + d

/-- `Ipv4Address::GetAny()`, the address `0.0.0.0`. -/
def Ipv4Address.GetAny : Ipv4Address := ipv4 0 0 0 0

/-- Modelled from the spec: the framework's `Ipv4FlowClassifier::FiveTuple`, one
of the "framework-owned value objects (flow identifiers, five-tuples, statistics
records, dataset points)" of spec section 3; its declaration is not under src/. -/
structure FiveTuple where
  sourceAddress : Ipv4Address
  destinationAddress : Ipv4Address
  protocol : Nat
  sourcePort : Nat
  destinationPort : Nat
deriving DecidableEq

/-- Modelled from the spec: the framework's `FlowMonitor::FlowStats` (a
"statistics record" of spec section 3, the "cumulative flow counters" of section
2), whose declaration is not under src/: the fields that the program reads. -/
structure FlowStats where
  timeFirstTxPacket : Time
  timeLastRxPacket : Time
  rxBytes : Nat
  txPackets : Nat
  rxPackets : Nat
deriving DecidableEq

/-- A `std::map<FlowId, FlowMonitor::FlowStats>`: its entries in iteration order,
which for `std::map` is strictly increasing key order (no two entries share a
key). -/
structure FlowStatsMap where
  entries : List (FlowId × FlowStats)
  ordered : (entries.map Prod.fst).Pairwise (· < ·)

/-- The empty map. -/
def FlowStatsMap.empty : FlowStatsMap := ⟨[], List.Pairwise.nil⟩

/-- The `double` operations the source uses, together with `Time::GetSeconds`. -/
structure Numerics (D : Type) where
  /-- conversion of an unsigned integer (or an integer literal) to `double` -/
  ofNat : Nat → D
  mul : D → D → D
  sub : D → D → D
  div : D → D → D
  /-- `Time::GetSeconds` -/
  GetSeconds : Time → D
  /-- the value is a NaN or an infinity -/
  isNanOrInf : D → Bool

/-- What the framework answers when the program asks. -/
structure Framework where
  /-- `flowMon->GetFlowStats()` at a given simulation time -/
  GetFlowStats : Time → FlowStatsMap
  /-- `classing->FindFlow(id)` -/
  FindFlow : FlowId → FiveTuple
  /-- `ueIpIfaces.GetAddress(u)`, as assigned by `epcHelper->AssignUeIpv4Address` -/
  ueAddress : Nat → Ipv4Address
  /-- `Seconds(startTimeSeconds->GetValue())` at the k-th draw of the random variable -/
  startTime : Nat → Time

/-! ## The world the program acts on -/

/-- What an event of the simulator runs when it fires. -/
inductive EventImpl
  /-- the stop event of `Simulator::Stop(delay)` -/
  | stop
  /-- `ThroughputMonitor` bound to its three arguments -/
  | throughputMonitor (fmhelper : Nat) (flowMon : Nat) (DataSet : Nat)
deriving DecidableEq

/-- A scheduled event: its time stamp, its unique id (the insertion count) and
what it runs. -/
structure Event where
  ts : Time
  uid : Nat
  impl : EventImpl
deriving DecidableEq

/-- One item written to standard output by `ThroughputMonitor`. -/
inductive Printed (D : Type)
  | flowId (id : FlowId) (src dst : Ipv4Address)
  | txPackets (n : Nat)
  | rxPackets (n : Nat)
  | throughput (kbps : D)
  | rule
deriving DecidableEq

/-- What a file written by the program holds. -/
inductive FileContent (D : Type)
  /-- the flow monitor serialised by `SerializeToXmlFile` -/
  | flowMonitorXml (stats : List (FlowId × FlowStats)) (enableHistograms enableProbes : Bool)
  /-- the plot written by `Gnuplot::GenerateOutput`: the points of each dataset -/
  | plot (datasets : List (List (D × D)))
deriving DecidableEq

/-- The kind of an installed application and the address and port `main` built
its helper with.  The port is the 16-bit value the framework's `uint16_t` port
parameter receives. -/
inductive AppKind
  /-- `UdpClientHelper(address, port)` -/
  | udpClient (remoteAddress : Ipv4Address) (remotePort : Nat)
  /-- `PacketSinkHelper("ns3::UdpSocketFactory", InetSocketAddress(address, port))` -/
  | packetSink (localAddress : Ipv4Address) (localPort : Nat)
deriving DecidableEq

/-- An application installed on a node. -/
structure App where
  kind : AppKind
  node : NodeId
deriving DecidableEq

/-- Modelled from the spec: the framework's `EpcTft::PacketFilter` (the
"traffic-filter" of spec section 2), whose declaration is not under src/: the
four port bounds that `main` may set, each a `uint16_t`; a fresh filter spans
all ports. -/
structure PacketFilter where
  remotePortStart : Nat := 0
  remotePortEnd : Nat := 65535
  localPortStart : Nat := 0
  localPortEnd : Nat := 65535
deriving DecidableEq

/-- The bearer classes of `EpsBearer` that the program uses. -/
inductive EpsBearer
  | GBR_CONV_VOICE
deriving DecidableEq

/-- One call of `ActivateDedicatedEpsBearer(ueDevice, bearer, tft)`: `ueDevice`
is the node the device sits on, `tft` the filters of the template in the order
they were added. -/
structure BearerActivation where
  ueDevice : NodeId
  bearer : EpsBearer
  tft : List PacketFilter
deriving DecidableEq

/-- One call of `AddNetworkRouteTo(network, mask, interface)` on the static
routing of a node. -/
structure NetworkRoute where
  network : Ipv4Address
  mask : Ipv4Address
  interface : Nat
deriving DecidableEq

/-- The framework state the program acts on. -/
structure World (D : Type) where
  /-- `Simulator::Now()` -/
  now : Time := 0
  /-- the uid the next scheduled event gets -/
  nextUid : Nat := 0
  /-- pending events, ordered by time stamp, then uid -/
  events : List Event := []
  /-- set by the stop event -/
  stopped : Bool := false
  /-- points of each plot dataset, by the handle of its shared data -/
  datasets : Nat → List (D × D) := fun _ => []
  /-- the handle the next dataset gets -/
  nextDataset : Nat := 0
  /-- files written, oldest first; a later write of a name replaces the earlier -/
  files : List (String × FileContent D) := []
  /-- standard output -/
  stdout : List (Printed D) := []
  /-- history: the simulation time at each entry into `ThroughputMonitor` -/
  calls : List Time := []
  /-- the id the next created node gets -/
  nextNode : NodeId := 0
  /-- installed applications, in installation order; an application's id is its index -/
  apps : List App := []
  /-- `Application::SetStartTime` calls, as (application id, time), in call order -/
  appStarts : List (Nat × Time) := []
  /-- `ActivateDedicatedEpsBearer` calls, in call order -/
  bearers : List BearerActivation := []
  /-- how many values were drawn from `startTimeSeconds` -/
  rngDraws : Nat := 0

/-! ## The simulator -/

/-- The order the external simulator runs events in: earlier time stamp first,
and among events of one time stamp the one scheduled first. -/
def Event.before (a b : Event) : Bool :=
  decide (a.ts < b.ts) || (decide (a.ts = b.ts) && decide (a.uid < b.uid))

/-- Insert an event in the pending list, keeping it ordered. -/
def insertEvent (e : Event) : List Event → List Event
  | [] => [e]
  | x :: xs => if e.before x then e :: x :: xs else x :: insertEvent e xs

/-- Modelled from the spec: the external simulator's scheduler (spec section 5,
"event-driven by the external simulator's scheduler"), which is not under src/.
`Simulator::Schedule(delay, f, args...)` queues one event at `Now() + delay`
with the next uid. -/
def Simulator.Schedule {D : Type} (delay : Time) (impl : EventImpl) (w : World D) : World D :=
  { w with
    events := insertEvent ⟨w.now + delay, w.nextUid, impl⟩ w.events
    nextUid := w.nextUid + 1 }

/-- Modelled from the spec: `Simulator::Stop(delay)` of the external simulator
(spec section 3, "until simulation stop time"): it schedules the stop event. -/
def Simulator.Stop {D : Type} (delay : Time) (w : World D) : World D :=
  Simulator.Schedule delay EventImpl.stop w

/-! ## Plot datasets and files -/

/-- Modelled from the spec: `Gnuplot2dDataset` of the external plotting helper,
not under src/.  A dataset value is a handle on shared point data: copying the
value (passing it by value, binding it in a scheduled event, adding it to a
plot) copies the handle, and all copies see one list of points, which is how
the sampler "appends a point to a dataset" that the output stage then renders
(spec section 2).  Constructing a dataset allocates fresh, empty data. -/
def Gnuplot2dDataset.new {D : Type} (w : World D) : Nat × World D :=
  (w.nextDataset,
   { w with
     datasets := fun h => if h = w.nextDataset then [] else w.datasets h
     nextDataset := w.nextDataset + 1 })

/-- Modelled from the spec: `Gnuplot2dDataset::Add(x, y)` appends the point to
the data the handle refers to (spec section 4, "append `(now, throughput)` to a
series"). -/
def Gnuplot2dDataset.Add {D : Type} (DataSet : Nat) (x y : D) (w : World D) : World D :=
  { w with datasets := fun h => if h = DataSet then w.datasets h ++ [(x, y)] else w.datasets h }

/-- Writing a file through a `std::ofstream` opened on a name: the write is
logged; the file then holds what the last write under its name put there. -/
def writeFile {D : Type} (name : String) (c : FileContent D) (w : World D) : World D :=
  { w with files := w.files ++ [(name, c)] }

/-- What a file holds: what the last write under that name put there. -/
def fileContent {D : Type} (name : String) (w : World D) : Option (FileContent D) :=
  ((w.files.filter (fun f => f.1 = name)).getLast?).map Prod.snd

/-- How many times a file of that name was written. -/
def writeCount {D : Type} (name : String) (w : World D) : Nat :=
  w.files.countP (fun f => f.1 = name)

/-- Modelled from the spec: `FlowMonitor::SerializeToXmlFile(fileName,
enableHistograms, enableProbes)` of the external framework, not under src/
("serializes monitor state to disk", spec section 2; "flow-monitor
serialization, overwritten every sample", section 6): the monitor's current
statistics go to the named file. -/
def SerializeToXmlFile {D : Type} (fw : Framework) (fileName : String)
    (enableHistograms enableProbes : Bool) (w : World D) : World D :=
  writeFile fileName
    (FileContent.flowMonitorXml (fw.GetFlowStats w.now).entries enableHistograms enableProbes) w

/-- `std::cout << ...`. -/
def print {D : Type} (items : List (Printed D)) (w : World D) : World D :=
  { w with stdout := w.stdout ++ items }

/-! ## `ThroughputMonitor` (lte.cc lines 19-61) -/

/-- `Seconds(0.2)`, the delay of the rescheduling, in nanoseconds. -/
def samplingInterval : Time := 200000000

/-- The state of the loop over the flows: the local `localThroughput` and the world. -/
structure MonitorLoop (D : Type) where
  localThroughput : D
  world : World D

/-- The body of the `for` loop over the flow statistics (lines 30-57), for the
entry `stats` the iterator points at. -/
def monitorBody {D : Type} (A : Numerics D) (fw : Framework) (DataSet : Nat)
    (st : MonitorLoop D) (stats : FlowId × FlowStats) : MonitorLoop D :=
  let fiveTuple := fw.FindFlow stats.1
  if fiveTuple.sourceAddress = ipv4 1 0 0 2 then
    let w1 := print
      [Printed.flowId stats.1 fiveTuple.sourceAddress fiveTuple.destinationAddress,
       Printed.txPackets stats.2.txPackets,
       Printed.rxPackets stats.2.rxPackets,
       Printed.throughput
         (A.div
           (A.div (A.mul (A.ofNat stats.2.rxBytes) (A.ofNat 8))
             (A.sub (A.GetSeconds stats.2.timeLastRxPacket)
               (A.GetSeconds stats.2.timeFirstTxPacket)))
           (A.ofNat 1024))] st.world
    let localThroughput :=
      A.div
        (A.div (A.mul (A.ofNat stats.2.rxBytes) (A.ofNat 8))
          (A.sub (A.GetSeconds stats.2.timeLastRxPacket)
            (A.GetSeconds stats.2.timeFirstTxPacket)))
        (A.ofNat 1024)
    let w2 := Gnuplot2dDataset.Add DataSet (A.GetSeconds w1.now) localThroughput w1
    let w3 := print [Printed.rule] w2
    ⟨localThroughput, w3⟩
  else st

/-- `ThroughputMonitor(fmhelper, flowMon, DataSet)`. -/
def ThroughputMonitor {D : Type} (A : Numerics D) (fw : Framework)
    (fmhelper flowMon DataSet : Nat) (w : World D) : World D :=
  let w0 : World D := { w with calls := w.calls ++ [w.now] }
  let localThroughput := A.ofNat 0
  let flowStats := fw.GetFlowStats w0.now
  let st := flowStats.entries.foldl (monitorBody A fw DataSet) ⟨localThroughput, w0⟩
  let w1 := Simulator.Schedule samplingInterval
    (EventImpl.throughputMonitor fmhelper flowMon DataSet) st.world
  SerializeToXmlFile fw "ThroughputMonitor.xml" true true w1

/-- Running one event: the stop event sets the stop flag, a sampler event calls
`ThroughputMonitor` with the arguments bound when it was scheduled.  The events
of the framework itself (packets, radio, mobility) show only through what
`Framework.GetFlowStats` answers at each time. -/
def invoke {D : Type} (A : Numerics D) (fw : Framework) (impl : EventImpl) (w : World D) :
    World D :=
  match impl with
  | EventImpl.stop => { w with stopped := true }
  | EventImpl.throughputMonitor fmhelper flowMon DataSet =>
      ThroughputMonitor A fw fmhelper flowMon DataSet w

/-- Modelled from the spec: `Simulator::Run()` of the external simulator (spec
section 5, "single-threaded, cooperative, event-driven"): while events are
pending and the stop flag is not set, take the first pending event, advance the
clock to its time stamp and run it.  `none` when the fuel runs out first. -/
def Simulator.Run {D : Type} (A : Numerics D) (fw : Framework) : Nat → World D → Option (World D)
  | 0, _ => none
  | fuel + 1, w =>
    if w.stopped then some w
    else
      match w.events with
      | [] => some w
      | e :: rest => Simulator.Run A fw fuel (invoke A fw e.impl { w with events := rest, now := e.ts })

/-! ## `main` (lte.cc lines 63-260) -/

/-- Conversion of an `int` to `uint32_t`, as happens to the argument of
`NodeContainer::Create`. -/
def toUInt32 (i : Int) : Nat := (i % 4294967296).toNat

/-- Conversion of an `int` to `uint16_t`, as happens to the port argument of
`UdpClientHelper` and of `InetSocketAddress` and to the value assigned to a
port field of `EpcTft::PacketFilter`: the value modulo 2^16. -/
def toUInt16 (i : Int) : Nat := (i % 65536).toNat

/-- Modelled from the spec: `CommandLine::AddValue` and `CommandLine::Parse` of
the external framework, not under src/ ("CLI flag: `--numberOfUes` (integer,
default 30)", spec section 6): the value given on the command line replaces the
initial value of the variable; without the flag the variable keeps it. -/
def CommandLine.Parse (numberOfUes : Option Int) (ueNumber : Int) : Int :=
  match numberOfUes with
  | some v => v
  | none => ueNumber

/-- Modelled from the spec: `NodeContainer::Create(n)` of the external
framework, not under src/ ("constructs nodes", spec section 2): `n` new nodes,
with the next `n` node ids. -/
def NodeContainer.Create {D : Type} (n : Nat) (w : World D) : List NodeId × World D :=
  ((List.range n).map (fun i => w.nextNode + i), { w with nextNode := w.nextNode + n })

/-- Modelled from the spec: `NodeContainer::Get(i)` and
`NetDeviceContainer::Get(i)` of the external framework, not under src/: the
i-th item of the container; the program only asks for indices below its size. -/
def NodeContainer.Get (c : List NodeId) (i : Nat) : NodeId := c.getD i 0

/-- Modelled from the spec: `CreateObject<PointToPointEpcHelper>()` followed by
`GetPgwNode()`, of the external framework, not under src/ ("one
packet-gateway", spec section 1): the packet gateway is a node the helper
creates; the helper's other nodes are not represented. -/
def PointToPointEpcHelper.GetPgwNode {D : Type} (w : World D) : NodeId × World D :=
  (w.nextNode, { w with nextNode := w.nextNode + 1 })

/-- Modelled from the spec: the framework's `Ipv4AddressHelper` ("IP
addressing", spec section 2), not under src/: the network, the mask and the
next host part. -/
structure Ipv4AddressHelper where
  network : Ipv4Address
  mask : Ipv4Address
  address : Nat

/-- Modelled from the spec: `Ipv4AddressHelper::SetBase(network, mask)` of the
external framework, not under src/; the host part starts at `0.0.0.1`. -/
def Ipv4AddressHelper.SetBase (network mask : Ipv4Address) : Ipv4AddressHelper :=
  ⟨network, mask, ipv4 0 0 0 1⟩

/-- Modelled from the spec: `Ipv4AddressHelper::Assign` of the external
framework, not under src/ ("constructs nodes, links, and IP addressing
(delegates entirely to framework helpers)", spec section 2): each device of the
container, in order, gets the network combined with the next host part. -/
def Ipv4AddressHelper.Assign (h : Ipv4AddressHelper) :
    List NodeId → List Ipv4Address × Ipv4AddressHelper
  | [] => ([], h)
  | _ :: ds =>
    let r := Ipv4AddressHelper.Assign { h with address := h.address + 1 } ds
    ((h.network ||| h.address) :: r.1, r.2)

/-- Modelled from the spec: `Ipv4InterfaceContainer::GetAddress(i)` of the
external framework, not under src/: the i-th address assigned. -/
def Ipv4InterfaceContainer.GetAddress (c : List Ipv4Address) (i : Nat) : Ipv4Address :=
  c.getD i 0

/-- Modelled from the spec: `UdpClientHelper::Install(node)` and
`PacketSinkHelper::Install(node)` of the external framework, not under src/
("creating paired UDP client/server application instances", spec section 2):
the application is created on the node; the returned container holds its id. -/
def installApp {D : Type} (a : App) (w : World D) : List Nat × World D :=
  ([w.apps.length], { w with apps := w.apps ++ [a] })

/-- Modelled from the spec: `ApplicationContainer::Start(t)` of the external
framework, not under src/: every application of the container, in order, gets
the start time. -/
def ApplicationContainer.Start {D : Type} (c : List Nat) (t : Time) (w : World D) : World D :=
  { w with appStarts := w.appStarts ++ c.map (fun a => (a, t)) }

/-- Modelled from the spec: `LteHelper::ActivateDedicatedEpsBearer(ueDevice,
bearer, tft)` of the external framework, not under src/ ("a dedicated
bearer/traffic-filter", spec section 2): the activation is recorded. -/
def ActivateDedicatedEpsBearer {D : Type} (ueDevice : NodeId) (bearer : EpsBearer)
    (tft : List PacketFilter) (w : World D) : World D :=
  { w with bearers := w.bearers ++ [⟨ueDevice, bearer, tft⟩] }

/-- `Seconds(startTimeSeconds->GetValue())`: one draw from the random variable;
the values drawn are the framework's. -/
def drawStartTime {D : Type} (fw : Framework) (w : World D) : Time × World D :=
  (fw.startTime w.rngDraws, { w with rngDraws := w.rngDraws + 1 })

/-- The variables the installer loop changes: the two port counters and the world. -/
structure InstallerLoop (D : Type) where
  dlPort : Int
  ulPort : Int
  world : World D

/-- The body of the installer loop (lines 161-206) for the UE index `u`. -/
def installerBody {D : Type} (fw : Framework) (remoteHost : NodeId)
    (remoteHostAddr : Ipv4Address) (ueNodes ueDevices : List NodeId)
    (u : Int) (st : InstallerLoop D) : InstallerLoop D :=
  let ue := NodeContainer.Get ueNodes u.toNat
  let dlPort := st.dlPort + 1
  let ulPort := st.ulPort + 1
  let clientApps : List Nat := []
  let serverApps : List Nat := []
  -- downlink: client on the remote host, sink on the UE
  let r1 := installApp
    ⟨AppKind.udpClient (fw.ueAddress u.toNat) (toUInt16 dlPort), remoteHost⟩ st.world
  let clientApps := clientApps ++ r1.1
  let r2 := installApp ⟨AppKind.packetSink Ipv4Address.GetAny (toUInt16 dlPort), ue⟩ r1.2
  let serverApps := serverApps ++ r2.1
  -- uplink: client on the UE, sink on the remote host
  let r3 := installApp ⟨AppKind.udpClient remoteHostAddr (toUInt16 ulPort), ue⟩ r2.2
  let clientApps := clientApps ++ r3.1
  let r4 := installApp
    ⟨AppKind.packetSink Ipv4Address.GetAny (toUInt16 ulPort), remoteHost⟩ r3.2
  let serverApps := serverApps ++ r4.1
  -- the traffic flow template
  let tft : List PacketFilter := []
  let dlpf : PacketFilter :=
    { localPortStart := toUInt16 dlPort, localPortEnd := toUInt16 dlPort }
  let tft := tft ++ [dlpf]
  let ulpf : PacketFilter :=
    { remotePortStart := toUInt16 ulPort, remotePortEnd := toUInt16 ulPort }
  let tft := tft ++ [ulpf]
  let bearer := EpsBearer.GBR_CONV_VOICE
  let w5 := ActivateDedicatedEpsBearer (NodeContainer.Get ueDevices u.toNat) bearer tft r4.2
  let r6 := drawStartTime fw w5
  let w7 := ApplicationContainer.Start serverApps r6.1 r6.2
  let w8 := ApplicationContainer.Start clientApps r6.1 w7
  ⟨dlPort, ulPort, w8⟩

/-- The loop `for (int u = 0; u < ueNumber; ++u)`, from the index `u` on.  The
fuel bounds the number of iterations; `installerLoop_eq` shows that the loop
leaves by its own test whenever the fuel is at least `ueNumber - u`. -/
def installerLoop {D : Type} (fw : Framework) (remoteHost : NodeId)
    (remoteHostAddr : Ipv4Address) (ueNodes ueDevices : List NodeId) (ueNumber : Int) :
    Nat → Int → InstallerLoop D → InstallerLoop D
  | 0, _, st => st
  | fuel + 1, u, st =>
    if u < ueNumber then
      installerLoop fw remoteHost remoteHostAddr ueNodes ueDevices ueNumber fuel (u + 1)
        (installerBody fw remoteHost remoteHostAddr ueNodes ueDevices u st)
    else st

/-- The local variables of `main` after the set-up (line 220), and the world. -/
structure Setup (D : Type) where
  ueNumber : Int
  pgw : NodeId
  remoteHostContainer : List NodeId
  remoteHost : NodeId
  internetDevices : List NodeId
  internetIpIfaces : List Ipv4Address
  remoteHostAddr : Ipv4Address
  remoteHostStaticRouting : List NetworkRoute
  enbNodes : List NodeId
  ueNodes : List NodeId
  ueDevices : List NodeId
  dlPort : Int
  ulPort : Int
  world : World D

/-- Lines 66-220 of `main`: the topology and the applications.  `numberOfUes` is
the value of the command-line flag, when given.  The calls that only set
attributes of the framework (defaults, scheduler, mobility, traces, the default
route of each UE) act on no part of the world and are left out. -/
def setup {D : Type} (fw : Framework) (numberOfUes : Option Int) : Setup D :=
  let ueNumber : Int := 30
  let ueNumber := CommandLine.Parse numberOfUes ueNumber
  let w : World D := {}
  let r0 := PointToPointEpcHelper.GetPgwNode w
  let pgw := r0.1
  let r1 := NodeContainer.Create 1 r0.2
  let remoteHostContainer := r1.1
  let remoteHost := NodeContainer.Get remoteHostContainer 0
  -- p2ph.Install(pgw, remoteHost): one device on each
  let internetDevices := [pgw, remoteHost]
  let ipv4h := Ipv4AddressHelper.SetBase (ipv4 1 0 0 0) (ipv4 255 0 0 0)
  let internetIpIfaces := (ipv4h.Assign internetDevices).1
  let remoteHostAddr := Ipv4InterfaceContainer.GetAddress internetIpIfaces 1
  -- the route of the remote host towards the UEs
  let remoteHostStaticRouting : List NetworkRoute := []
  let remoteHostStaticRouting :=
    remoteHostStaticRouting ++ [⟨ipv4 7 0 0 0, ipv4 255 0 0 0, 1⟩]
  let r2 := NodeContainer.Create 1 r1.2
  let enbNodes := r2.1
  let r3 := NodeContainer.Create (toUInt32 ueNumber) r2.2
  let ueNodes := r3.1
  -- lteHelper->InstallUeDevice(ueNodes): one device on each UE node
  let ueDevices := ueNodes
  let dlPort : Int := 10000
  let ulPort : Int := 20000
  let st := installerLoop fw remoteHost remoteHostAddr ueNodes ueDevices ueNumber
    ueNumber.toNat 0 ⟨dlPort, ulPort, r3.2⟩
  { ueNumber := ueNumber, pgw := pgw, remoteHostContainer := remoteHostContainer,
    remoteHost := remoteHost, internetDevices := internetDevices,
    internetIpIfaces := internetIpIfaces, remoteHostAddr := remoteHostAddr,
    remoteHostStaticRouting := remoteHostStaticRouting,
    enbNodes := enbNodes, ueNodes := ueNodes, ueDevices := ueDevices,
    dlPort := st.dlPort, ulPort := st.ulPort, world := st.world }

/-- `Seconds(60.0)`, the simulation time, in nanoseconds. -/
def simulationTime : Time := 60000000000

/-- Lines 222-249 of `main`: the stop event, the dataset, the direct call of the
sampler and the run.  The flow monitor helper and the flow monitor are the
objects 0 and 0.  Gives the handle of `dataset` and the world when
`Simulator::Run` returns, `none` when the fuel runs out before that. -/
def simulate {D : Type} (A : Numerics D) (fw : Framework) (fuel : Nat) (w : World D) :
    Option (Nat × World D) :=
  let w1 := Simulator.Stop simulationTime w
  let r2 := Gnuplot2dDataset.new w1
  let dataset := r2.1
  let w3 := ThroughputMonitor A fw 0 0 dataset r2.2
  match Simulator.Run A fw fuel w3 with
  | none => none
  | some w4 => some (dataset, w4)

/-- Modelled from the spec: `Gnuplot::GenerateOutput(plotFile)` of the external
plotting helper, not under src/ ("renders the collected dataset to a plot file
after the run", spec section 2), on the stream of the named file: the points of
every dataset added to the plot, as they are at that moment. -/
def GenerateOutput {D : Type} (gnuplot : List Nat) (plotFileName : String) (w : World D) :
    World D :=
  writeFile plotFileName (FileContent.plot (gnuplot.map w.datasets)) w

/-- `main`, with the value of `--numberOfUes` when the flag is given.  The
animation trace and the graphics file are the framework's own output and are
not represented. -/
def main {D : Type} (A : Numerics D) (fw : Framework) (numberOfUes : Option Int)
    (fuel : Nat) : Option (World D) :=
  let s : Setup D := setup fw numberOfUes
  let fileNameWithNoExtension := "FlowVSThroughput_"
  let plotFileName := fileNameWithNoExtension ++ ".plt"
  let gnuplot : List Nat := []
  match simulate A fw fuel s.world with
  | none => none
  | some (dataset, w) =>
    let gnuplot := gnuplot ++ [dataset]
    some (GenerateOutput gnuplot plotFileName w)

/-! ## An executable arithmetic -/

/-- A value of type `double`: a NaN, an infinity with its sign, or a finite
value.  Finite values are kept exactly (rounding is not represented) and the
two zeros are one. -/
inductive Dbl
  | nan
  | inf (negative : Bool)
  | fin (q : ℚ)
deriving DecidableEq

/-- Multiplication. -/
def Dbl.mul : Dbl → Dbl → Dbl
  | Dbl.nan, _ => Dbl.nan
  | _, Dbl.nan => Dbl.nan
  | Dbl.inf s, Dbl.inf t => Dbl.inf (xor s t)
  | Dbl.inf s, Dbl.fin q => if q = 0 then Dbl.nan else Dbl.inf (xor s (decide (q < 0)))
  | Dbl.fin q, Dbl.inf s => if q = 0 then Dbl.nan else Dbl.inf (xor s (decide (q < 0)))
  | Dbl.fin a, Dbl.fin b => Dbl.fin (a * b)

/-- Subtraction. -/
def Dbl.sub : Dbl → Dbl → Dbl
  | Dbl.nan, _ => Dbl.nan
  | _, Dbl.nan => Dbl.nan
  | Dbl.inf s, Dbl.inf t => if s = t then Dbl.nan else Dbl.inf s
  | Dbl.inf s, Dbl.fin _ => Dbl.inf s
  | Dbl.fin _, Dbl.inf t => Dbl.inf (!t)
  | Dbl.fin a, Dbl.fin b => Dbl.fin (a - b)

/-- Division: a finite non-zero value over zero is an infinity, zero over zero
is a NaN. -/
def Dbl.div : Dbl → Dbl → Dbl
  | Dbl.nan, _ => Dbl.nan
  | _, Dbl.nan => Dbl.nan
  | Dbl.inf _, Dbl.inf _ => Dbl.nan
  | Dbl.inf s, Dbl.fin q => Dbl.inf (xor s (decide (q < 0)))
  | Dbl.fin _, Dbl.inf _ => Dbl.fin 0
  | Dbl.fin a, Dbl.fin b =>
    if b = 0 then (if a = 0 then Dbl.nan else Dbl.inf (decide (a < 0))) else Dbl.fin (a / b)

/-- The value is a NaN or an infinity. -/
def Dbl.isNanOrInf : Dbl → Bool
  | Dbl.fin _ => false
  | _ => true

/-- The executable arithmetic; a time is its count of nanoseconds over `10^9`. -/
def dblNumerics : Numerics Dbl where
  ofNat := fun n => Dbl.fin n
  mul := Dbl.mul
  sub := Dbl.sub
  div := Dbl.div
  GetSeconds := fun t => Dbl.fin ((t : ℚ) / 1000000000)
  isNanOrInf := Dbl.isNanOrInf

/-! ## The specification's reading of the sampler

The definitions below follow the words of the specification ("for each flow
whose source address matches a fixed constant, compute `throughput = rxBytes*8 /
(lastRxTime - firstTxTime) / 1024` and append `(now, throughput)` to a
series"); the theorems compare them with `ThroughputMonitor`. -/

/-- The flow's source address is the fixed constant 1.0.0.2. -/
def specMatches (fw : Framework) (e : FlowId × FlowStats) : Bool :=
  decide ((fw.FindFlow e.1).sourceAddress = ipv4 1 0 0 2)

/-- The specification's formula `rxBytes*8 / (lastRxTime - firstTxTime) / 1024`. -/
def specThroughput {D : Type} (A : Numerics D) (s : FlowStats) : D :=
  A.div
    (A.div (A.mul (A.ofNat s.rxBytes) (A.ofNat 8))
      (A.sub (A.GetSeconds s.timeLastRxPacket) (A.GetSeconds s.timeFirstTxPacket)))
    (A.ofNat 1024)

/-- The points one sample at time `now` is specified to append: one per
matching flow of the statistics map, in the order of the map. -/
def specSamplePoints {D : Type} (A : Numerics D) (fw : Framework) (now : Time) : List (D × D) :=
  ((fw.GetFlowStats now).entries.filter (specMatches fw)).map
    (fun e => (A.GetSeconds now, specThroughput A e.2))

/-- What one sample prints for a matching flow. -/
def specPrinted {D : Type} (A : Numerics D) (fw : Framework) (e : FlowId × FlowStats) :
    List (Printed D) :=
  [Printed.flowId e.1 (fw.FindFlow e.1).sourceAddress (fw.FindFlow e.1).destinationAddress,
   Printed.txPackets e.2.txPackets,
   Printed.rxPackets e.2.rxPackets,
   Printed.throughput (specThroughput A e.2),
   Printed.rule]

/-! ## The specification's reading of the installer

The definitions below follow the words of the specification ("per-UE loop
creating paired UDP client/server application instances and a dedicated
bearer/traffic-filter"); the theorems compare them with the loop of `main`. -/

/-- The four applications of the UE with index `u`, given the two ports: the
downlink pair (client on the remote host towards the UE's address, sink on the
UE) and the uplink pair (client on the UE towards the remote host's address,
sink on the remote host). -/
def specApps (fw : Framework) (remoteHost : NodeId) (remoteHostAddr : Ipv4Address)
    (ueNodes : List NodeId) (u : Nat) (dlPort ulPort : Nat) : List App :=
  [⟨AppKind.udpClient (fw.ueAddress u) dlPort, remoteHost⟩,
   ⟨AppKind.packetSink Ipv4Address.GetAny dlPort, NodeContainer.Get ueNodes u⟩,
   ⟨AppKind.udpClient remoteHostAddr ulPort, NodeContainer.Get ueNodes u⟩,
   ⟨AppKind.packetSink Ipv4Address.GetAny ulPort, remoteHost⟩]

/-- The dedicated bearer of the UE with index `u`: on its device, with a
template of two filters, the first on the local port range `[dlPort, dlPort]`,
the second on the remote port range `[ulPort, ulPort]`. -/
def specBearer (ueDevices : List NodeId) (u : Nat) (dlPort ulPort : Nat) : BearerActivation :=
  ⟨NodeContainer.Get ueDevices u, EpsBearer.GBR_CONV_VOICE,
   [{ localPortStart := dlPort, localPortEnd := dlPort },
    { remotePortStart := ulPort, remotePortEnd := ulPort }]⟩

/-- The start-time calls for the four applications whose ids begin at `base`:
the two sinks, then the two clients, all with the time `t`. -/
def specStarts (base : Nat) (t : Time) : List (Nat × Time) :=
  [(base + 1, t), (base + 3, t), (base, t), (base + 2, t)]

/-- The port an application was built with. -/
def App.port (a : App) : Nat :=
  match a.kind with
  | AppKind.udpClient _ p => p
  | AppKind.packetSink _ p => p

/-- The ports the UDP clients send to, in installation order: for each UE its
downlink port, then its uplink port. -/
def assignedPorts (apps : List App) : List Nat :=
  apps.filterMap (fun a =>
    match a.kind with
    | AppKind.udpClient _ p => some p
    | AppKind.packetSink _ _ => none)

/-! ## Concrete inputs -/

/-- A framework for concrete evaluations: no flow at time 0; afterwards four
flows, the flows 1, 3 and 4 sent from 1.0.0.2 and the flow 2 sent by a UE.
Flow 3 has seen no packet received and was first sent at time 0; flow 4 has its
last reception at the time of its first transmission. -/
def sampleFramework : Framework where
  GetFlowStats := fun t =>
    if t = 0 then FlowStatsMap.empty
    else
      ⟨[(1, ⟨5000000, 150000000, 2048, 10, 8⟩), (2, ⟨6000000, 0, 0, 3, 0⟩),
        (3, ⟨0, 0, 0, 1, 0⟩), (4, ⟨7, 7, 100, 1, 1⟩)], by decide⟩
  FindFlow := fun id =>
    if id = 2 then ⟨ipv4 7 0 0 2, ipv4 1 0 0 2, 17, 49153, 20001⟩
    else ⟨ipv4 1 0 0 2, ipv4 7 0 0 2, 17, 49153, 10001⟩
  ueAddress := fun u => ipv4 7 0 0 2 + u
  startTime := fun k => 1000000 * (k + 1)

/-- A framework whose only flow is sent from 1.0.0.2, was first transmitted at
5 ms and has had no packet received yet. -/
def unreceivedFramework : Framework where
  GetFlowStats := fun _ => ⟨[(1, ⟨5000000, 0, 0, 1, 0⟩)], by decide⟩
  FindFlow := fun _ => ⟨ipv4 1 0 0 2, ipv4 7 0 0 2, 17, 49153, 10001⟩
  ueAddress := fun u => ipv4 7 0 0 2 + u
  startTime := fun _ => 5000000

/-- A world in which the clock shows 0.2 s. -/
def sampleWorld : World Dbl := { now := 200000000 }

/-! ## The state of the run between two samples -/

/-- The stop event as `main` schedules it: first event of the program, at the
simulation time. -/
def stopEvent : Event := ⟨simulationTime, 0, EventImpl.stop⟩

/-- The state of the simulation once the sampler has been called `k + 1` times
(the direct call of `main` and `k` events): the clock shows `0.2 s * k`, the
stop flag is not set, the pending events are the stop event and the sampler
event for `0.2 s * (k + 1)`, the calls so far happened at the multiples of
0.2 s, and dataset `ds` holds the specified points of those calls. -/
def SamplerInv {D : Type} (A : Numerics D) (fw : Framework) (ds : Nat) (k : Nat)
    (w : World D) : Prop :=
  w.now = samplingInterval * (k : Int)
    ∧ w.stopped = false
    ∧ w.nextUid = k + 2
    ∧ w.events =
        insertEvent ⟨samplingInterval * ((k + 1 : Nat) : Int), k + 1,
          EventImpl.throughputMonitor 0 0 ds⟩ [stopEvent]
    ∧ w.calls = (List.range (k + 1)).map (fun j : Nat => samplingInterval * (j : Int))
    ∧ w.datasets ds =
        (List.range (k + 1)).flatMap
          (fun j : Nat => specSamplePoints A fw (samplingInterval * (j : Int)))

/-! # Properties -/

/-! ## The loop of the sampler -/

/-- The loop over the flow statistics appends the specified points to the
dataset and the specified lines to standard output, and changes nothing else. -/
theorem foldl_monitorBody {D : Type} (A : Numerics D) (fw : Framework) (DataSet : Nat)
    (entries : List (FlowId × FlowStats)) (st : MonitorLoop D) :
    (entries.foldl (monitorBody A fw DataSet) st).world =
      { st.world with
        datasets := fun h =>
          if h = DataSet then
            st.world.datasets h ++
              (entries.filter (specMatches fw)).map
                (fun e => (A.GetSeconds st.world.now, specThroughput A e.2))
          else st.world.datasets h
        stdout := st.world.stdout ++ (entries.filter (specMatches fw)).flatMap (specPrinted A fw) } := by
  induction entries generalizing st with
  | nil =>
    obtain ⟨l, w⟩ := st
    cases w
    simp
  | cons e es ih =>
    rw [List.foldl_cons, ih]
    obtain ⟨l, w⟩ := st
    cases w
    by_cases h : (fw.FindFlow e.1).sourceAddress = ipv4 1 0 0 2
    · simp only [monitorBody, h, if_true, specMatches, decide_True, List.filter_cons_of_pos,
        Gnuplot2dDataset.Add, print, World.mk.injEq, true_and, and_true, List.map_cons,
        List.flatMap_cons, specPrinted, specThroughput]
      refine ⟨?_, ?_⟩
      · funext k
        by_cases hk : k = DataSet <;> simp [hk]
      · simp [h]
    · simp [monitorBody, h, specMatches]

/-- The world after one call of the sampler, field by field. -/
theorem ThroughputMonitor_eq {D : Type} (A : Numerics D) (fw : Framework)
    (fmhelper flowMon DataSet : Nat) (w : World D) :
    ThroughputMonitor A fw fmhelper flowMon DataSet w =
      { w with
        calls := w.calls ++ [w.now]
        datasets := fun h =>
          if h = DataSet then w.datasets h ++ specSamplePoints A fw w.now else w.datasets h
        stdout := w.stdout ++
          ((fw.GetFlowStats w.now).entries.filter (specMatches fw)).flatMap (specPrinted A fw)
        events := insertEvent
          ⟨w.now + samplingInterval, w.nextUid,
            EventImpl.throughputMonitor fmhelper flowMon DataSet⟩ w.events
        nextUid := w.nextUid + 1
        files := w.files ++
          [("ThroughputMonitor.xml",
            FileContent.flowMonitorXml (fw.GetFlowStats w.now).entries true true)] } := by
  simp only [ThroughputMonitor, foldl_monitorBody, Simulator.Schedule, SerializeToXmlFile,
    writeFile, specSamplePoints]

/-! ## One call of the sampler -/

/-- C1: in one call of `ThroughputMonitor`, the points appended to the dataset
are, for every flow of the statistics map whose five-tuple source address is
1.0.0.2, the point `(now, rxBytes*8 / (timeLastRxPacket - timeFirstTxPacket) /
1024)` with `now` the current simulation time in seconds and the three counters
those of that flow; what was in the dataset before stays in front, and the
appended values are a function of the clock and of each flow's own counters
only. -/
theorem ThroughputMonitor_point_formula {D : Type} (A : Numerics D) (fw : Framework)
    (fmhelper flowMon DataSet : Nat) (w : World D) :
    (ThroughputMonitor A fw fmhelper flowMon DataSet w).datasets DataSet =
      w.datasets DataSet ++
        ((fw.GetFlowStats w.now).entries.filter
            (fun e => decide ((fw.FindFlow e.1).sourceAddress = ipv4 1 0 0 2))).map
          (fun e =>
            (A.GetSeconds w.now,
             A.div
               (A.div (A.mul (A.ofNat e.2.rxBytes) (A.ofNat 8))
                 (A.sub (A.GetSeconds e.2.timeLastRxPacket)
                   (A.GetSeconds e.2.timeFirstTxPacket)))
               (A.ofNat 1024))) := by
  rw [ThroughputMonitor_eq]
  simp only [if_true, specSamplePoints, specThroughput]
  rfl

/-- C2: one call of `ThroughputMonitor` appends exactly one point per flow of
the statistics map whose source address is 1.0.0.2 and none for any other flow:
the dataset grows by the number of matching flows (by nothing when none
matches), the appended points are those of the matching flows in the order of
the map, and that order is increasing flow id. -/
theorem ThroughputMonitor_one_point_per_matching_flow {D : Type} (A : Numerics D)
    (fw : Framework) (fmhelper flowMon DataSet : Nat) (w : World D) :
    (ThroughputMonitor A fw fmhelper flowMon DataSet w).datasets DataSet =
        w.datasets DataSet ++
          ((fw.GetFlowStats w.now).entries.filter (specMatches fw)).map
            (fun e => (A.GetSeconds w.now, specThroughput A e.2))
      ∧ ((ThroughputMonitor A fw fmhelper flowMon DataSet w).datasets DataSet).length =
        (w.datasets DataSet).length + (fw.GetFlowStats w.now).entries.countP (specMatches fw)
      ∧ (((fw.GetFlowStats w.now).entries.filter (specMatches fw)).map Prod.fst).Pairwise
          (· < ·)
      ∧ ((fw.GetFlowStats w.now).entries.countP (specMatches fw) = 0 →
          (ThroughputMonitor A fw fmhelper flowMon DataSet w).datasets DataSet =
            w.datasets DataSet) := by
  have h : (ThroughputMonitor A fw fmhelper flowMon DataSet w).datasets DataSet =
      w.datasets DataSet ++
        ((fw.GetFlowStats w.now).entries.filter (specMatches fw)).map
          (fun e => (A.GetSeconds w.now, specThroughput A e.2)) := by
    rw [ThroughputMonitor_eq]
    simp [specSamplePoints]
  refine ⟨h, ?_, ?_, ?_⟩
  · rw [h, List.length_append, List.length_map, List.countP_eq_length_filter]
  · have ho := (fw.GetFlowStats w.now).ordered
    rw [List.pairwise_map] at ho ⊢
    exact ho.filter _
  · intro h0
    rw [h, List.countP_eq_length_filter, List.length_eq_zero] at *
    simp [h0]

/-- C7: every call of `ThroughputMonitor` writes the flow monitor exactly once,
to the file named "ThroughputMonitor.xml", whatever the flow statistics are and
whether or not a flow matches: the write log grows by that one write, the count
of writes of that name grows by one, and the file then holds this sample's
serialisation (the earlier one is replaced). -/
theorem ThroughputMonitor_serializes_once {D : Type} (A : Numerics D) (fw : Framework)
    (fmhelper flowMon DataSet : Nat) (w : World D) :
    (ThroughputMonitor A fw fmhelper flowMon DataSet w).files =
        w.files ++
          [("ThroughputMonitor.xml",
            FileContent.flowMonitorXml (fw.GetFlowStats w.now).entries true true)]
      ∧ writeCount "ThroughputMonitor.xml" (ThroughputMonitor A fw fmhelper flowMon DataSet w) =
        writeCount "ThroughputMonitor.xml" w + 1
      ∧ fileContent "ThroughputMonitor.xml" (ThroughputMonitor A fw fmhelper flowMon DataSet w) =
        some (FileContent.flowMonitorXml (fw.GetFlowStats w.now).entries true true) := by
  rw [ThroughputMonitor_eq]
  refine ⟨rfl, ?_, ?_⟩
  · simp [writeCount, List.countP_append]
  · simp [fileContent, List.filter_append]

/-! ## The run -/

/-- `Simulator::Run` returns at once when the stop flag is set. -/
theorem Run_stopped {D : Type} (A : Numerics D) (fw : Framework) (fuel : Nat) (w : World D)
    (h : w.stopped = true) : Simulator.Run A fw (fuel + 1) w = some w := by
  simp [Simulator.Run, h]

/-- `Simulator::Run` runs the first pending event when the stop flag is not set. -/
theorem Run_cons {D : Type} (A : Numerics D) (fw : Framework) (fuel : Nat) (w : World D)
    (e : Event) (rest : List Event) (hs : w.stopped = false) (he : w.events = e :: rest) :
    Simulator.Run A fw (fuel + 1) w =
      Simulator.Run A fw fuel (invoke A fw e.impl { w with events := rest, now := e.ts }) := by
  simp [Simulator.Run, hs, he]

/-- Where a sampler event lands relative to the stop event: before it as long
as its time is below 60 s, after it from 60 s on. -/
theorem insertEvent_stopEvent (j : Nat) (impl : EventImpl) :
    insertEvent ⟨samplingInterval * (j : Int), j, impl⟩ [stopEvent] =
      if j < 300 then [⟨samplingInterval * (j : Int), j, impl⟩, stopEvent]
      else [stopEvent, ⟨samplingInterval * (j : Int), j, impl⟩] := by
  by_cases h : j < 300
  · have hb : Event.before ⟨samplingInterval * (j : Int), j, impl⟩ stopEvent = true := by
      simp only [Event.before, stopEvent, samplingInterval, simulationTime, Bool.or_eq_true,
        decide_eq_true_eq]
      left
      show (200000000 : Int) * (j : Int) < 60000000000
      omega
    simp [insertEvent, hb, h]
  · have hb : Event.before ⟨samplingInterval * (j : Int), j, impl⟩ stopEvent = false := by
      simp only [Event.before, stopEvent, samplingInterval, simulationTime, Bool.or_eq_false_iff,
        Bool.and_eq_false_iff, decide_eq_false_iff_not]
      refine ⟨?_, Or.inr (by omega)⟩
      show ¬ (200000000 : Int) * (j : Int) < 60000000000
      omega
    simp [insertEvent, hb, h]

/-- The direct call of the sampler in `main` establishes the invariant for
`k = 0`. -/
theorem SamplerInv_zero {D : Type} (A : Numerics D) (fw : Framework) (w : World D)
    (hnow : w.now = 0) (hstop : w.stopped = false) (huid : w.nextUid = 0)
    (hev : w.events = []) (hcalls : w.calls = []) :
    SamplerInv A fw (Gnuplot2dDataset.new (Simulator.Stop simulationTime w)).1 0
      (ThroughputMonitor A fw 0 0 (Gnuplot2dDataset.new (Simulator.Stop simulationTime w)).1
        (Gnuplot2dDataset.new (Simulator.Stop simulationTime w)).2) := by
  rw [ThroughputMonitor_eq]
  simp only [SamplerInv, Gnuplot2dDataset.new, Simulator.Stop, Simulator.Schedule, hnow, hstop,
    huid, hev, hcalls, insertEvent, stopEvent]
  refine ⟨by simp, trivial, trivial, ?_, by simp [samplingInterval, List.range_succ],
    by simp [samplingInterval, List.range_succ]⟩
  simp [samplingInterval]

/-- A sampler event running before the stop time re-establishes the invariant
for the next `k`. -/
theorem SamplerInv_step {D : Type} (A : Numerics D) (fw : Framework) (ds k : Nat)
    (w : World D) (h : SamplerInv A fw ds k w) (hk : k + 1 < 300) (fuel : Nat) :
    ∃ w2 : World D, Simulator.Run A fw (fuel + 1) w = Simulator.Run A fw fuel w2
      ∧ SamplerInv A fw ds (k + 1) w2 := by
  obtain ⟨hnow, hstop, huid, hev, hcalls, hdata⟩ := h
  rw [insertEvent_stopEvent, if_pos hk] at hev
  refine ⟨_, Run_cons A fw fuel w _ _ hstop hev, ?_⟩
  simp only [invoke]
  rw [ThroughputMonitor_eq]
  refine ⟨rfl, hstop, ?_, ?_, ?_, ?_⟩
  · simp [huid]
  · simp only [huid]
    have ht : samplingInterval * ((k + 1 : Nat) : Int) + samplingInterval =
        samplingInterval * ((k + 1 + 1 : Nat) : Int) := by
      push_cast
      ring
    rw [ht]
  · simp only [hcalls]
    rw [List.range_succ (k + 1), List.map_append]
    simp
  · simp only [hdata, if_true]
    rw [List.range_succ (k + 1), List.flatMap_append]
    simp

/-- From the invariant the run reaches the stop event: with enough fuel
`Simulator::Run` returns, the sampler has been called exactly at the 300
multiples of 0.2 s below 60 s, and dataset `ds` holds the points of those
calls, in order. -/
theorem Run_of_SamplerInv {D : Type} (A : Numerics D) (fw : Framework) (ds : Nat) :
    ∀ (n k : Nat) (w : World D), k + n = 299 → SamplerInv A fw ds k w →
      ∀ fuel : Nat, n + 2 ≤ fuel →
        ∃ wf : World D, Simulator.Run A fw fuel w = some wf
          ∧ wf.stopped = true
          ∧ wf.now = simulationTime
          ∧ wf.calls = (List.range 300).map (fun j : Nat => samplingInterval * (j : Int))
          ∧ wf.datasets ds =
              (List.range 300).flatMap
                (fun j : Nat => specSamplePoints A fw (samplingInterval * (j : Int)))
          ∧ wf.events =
              [⟨simulationTime, 300, EventImpl.throughputMonitor 0 0 ds⟩] := by
  intro n
  induction n with
  | zero =>
    intro k w hk h fuel hfuel
    obtain ⟨fuel, rfl⟩ : ∃ f, fuel = f + 2 := ⟨fuel - 2, by omega⟩
    have hk2 : k = 299 := by omega
    subst hk2
    obtain ⟨hnow, hstop, huid, hev, hcalls, hdata⟩ := h
    rw [insertEvent_stopEvent, if_neg (by omega)] at hev
    refine ⟨invoke A fw stopEvent.impl
      { w with
        events := [⟨samplingInterval * ((299 + 1 : Nat) : Int), 299 + 1,
          EventImpl.throughputMonitor 0 0 ds⟩]
        now := stopEvent.ts }, ?_, ?_⟩
    · rw [Run_cons A fw (fuel + 1) w _ _ hstop hev]
      exact Run_stopped A fw fuel _ rfl
    · refine ⟨rfl, rfl, hcalls, hdata, ?_⟩
      simp [invoke, stopEvent, samplingInterval, simulationTime]
  | succ n ih =>
    intro k w hk h fuel hfuel
    obtain ⟨fuel, rfl⟩ : ∃ f, fuel = f + 1 := ⟨fuel - 1, by omega⟩
    obtain ⟨w2, hrun, h2⟩ := SamplerInv_step A fw ds k w h (by omega) fuel
    rw [hrun]
    exact ih (k + 1) w2 (by omega) h2 fuel (by omega)

/-! ## The installer loop -/

/-- One pass through the body of the installer loop: the two ports go up by
one, four applications, one bearer and four start times are added, one random
value is drawn, and nothing else changes. -/
theorem installerBody_eq {D : Type} (fw : Framework) (remoteHost : NodeId)
    (remoteHostAddr : Ipv4Address) (ueNodes ueDevices : List NodeId) (u : Nat)
    (st : InstallerLoop D) :
    installerBody fw remoteHost remoteHostAddr ueNodes ueDevices (u : Int) st =
      ⟨st.dlPort + 1, st.ulPort + 1,
        { st.world with
          apps := st.world.apps ++
            specApps fw remoteHost remoteHostAddr ueNodes u (toUInt16 (st.dlPort + 1)) (toUInt16 (st.ulPort + 1))
          bearers := st.world.bearers ++
            [specBearer ueDevices u (toUInt16 (st.dlPort + 1)) (toUInt16 (st.ulPort + 1))]
          appStarts := st.world.appStarts ++
            specStarts st.world.apps.length (fw.startTime st.world.rngDraws)
          rngDraws := st.world.rngDraws + 1 }⟩ := by
  simp [installerBody, installApp, ActivateDedicatedEpsBearer, drawStartTime,
    ApplicationContainer.Start, specApps, specBearer, specStarts]

/-- The installer adds four applications per UE. -/
theorem specApps_length (fw : Framework) (remoteHost : NodeId) (remoteHostAddr : Ipv4Address)
    (ueNodes : List NodeId) (u : Nat) (dlPort ulPort : Nat) :
    (specApps fw remoteHost remoteHostAddr ueNodes u dlPort ulPort).length = 4 := rfl

/-- The installer loop in closed form.  When `n` indices remain below
`ueNumber` and the fuel is at least `n`, the loop runs its body exactly `n`
times, for the indices `u, u + 1, ..., u + n - 1`, and leaves by its test. -/
theorem installerLoop_eq {D : Type} (fw : Framework) (remoteHost : NodeId)
    (remoteHostAddr : Ipv4Address) (ueNodes ueDevices : List NodeId) (ueNumber : Int) :
    ∀ (n fuel u : Nat) (st : InstallerLoop D), (ueNumber - (u : Int)).toNat = n → n ≤ fuel →
      installerLoop fw remoteHost remoteHostAddr ueNodes ueDevices ueNumber fuel (u : Int) st =
        ⟨st.dlPort + (n : Int), st.ulPort + (n : Int),
          { st.world with
            apps := st.world.apps ++
              (List.range n).flatMap (fun i =>
                specApps fw remoteHost remoteHostAddr ueNodes (u + i)
                  (toUInt16 (st.dlPort + 1 + (i : Int))) (toUInt16 (st.ulPort + 1 + (i : Int))))
            bearers := st.world.bearers ++
              (List.range n).map (fun i =>
                specBearer ueDevices (u + i) (toUInt16 (st.dlPort + 1 + (i : Int)))
                  (toUInt16 (st.ulPort + 1 + (i : Int))))
            appStarts := st.world.appStarts ++
              (List.range n).flatMap (fun i =>
                specStarts (st.world.apps.length + 4 * i) (fw.startTime (st.world.rngDraws + i)))
            rngDraws := st.world.rngDraws + n }⟩ := by
  intro n
  induction n with
  | zero =>
    intro fuel u st hn _
    have hle : ¬ ((u : Int) < ueNumber) := by omega
    obtain ⟨d, l, w⟩ := st
    cases w
    cases fuel with
    | zero => simp [installerLoop]
    | succ f => simp [installerLoop, hle]
  | succ n ih =>
    intro fuel u st hn hfuel
    obtain ⟨f, rfl⟩ : ∃ f, fuel = f + 1 := ⟨fuel - 1, by omega⟩
    have hlt : (u : Int) < ueNumber := by omega
    have hn2 : (ueNumber - ((u + 1 : Nat) : Int)).toNat = n := by omega
    have hstep := ih f (u + 1)
      (installerBody fw remoteHost remoteHostAddr ueNodes ueDevices (u : Int) st) hn2 (by omega)
    simp only [installerLoop, hlt, if_true]
    have hcast : ((u : Int) + 1) = ((u + 1 : Nat) : Int) := by push_cast; rfl
    rw [hcast, hstep, installerBody_eq]
    simp only [List.range_succ_eq_map, List.flatMap_cons, List.map_cons, List.flatMap_map,
      List.map_map, List.append_assoc, List.length_append, specApps_length,
      List.singleton_append, InstallerLoop.mk.injEq, World.mk.injEq, true_and,
      and_true, Nat.cast_zero, add_zero, Nat.mul_zero]
    refine ⟨by push_cast; ring, by push_cast; ring, ?_, ?_, ?_, by omega⟩
    · have h : ∀ i : Nat,
          specApps fw remoteHost remoteHostAddr ueNodes (u + 1 + i) (toUInt16 (st.dlPort + 1 + 1 + (i : Int)))
              (toUInt16 (st.ulPort + 1 + 1 + (i : Int))) =
            specApps fw remoteHost remoteHostAddr ueNodes (u + i.succ)
              (toUInt16 (st.dlPort + 1 + ((i.succ : Nat) : Int))) (toUInt16 (st.ulPort + 1 + ((i.succ : Nat) : Int))) := by
        intro i
        rw [show u + 1 + i = u + i.succ by omega,
          show st.dlPort + 1 + 1 + (i : Int) = st.dlPort + 1 + ((i.succ : Nat) : Int) by
            push_cast; ring,
          show st.ulPort + 1 + 1 + (i : Int) = st.ulPort + 1 + ((i.succ : Nat) : Int) by
            push_cast; ring]
      simp only [h]
    · have h : ∀ i : Nat,
          specStarts (st.world.apps.length + 4 + 4 * i) (fw.startTime (st.world.rngDraws + 1 + i)) =
            specStarts (st.world.apps.length + 4 * i.succ)
              (fw.startTime (st.world.rngDraws + i.succ)) := by
        intro i
        rw [show st.world.apps.length + 4 + 4 * i = st.world.apps.length + 4 * i.succ by omega,
          show st.world.rngDraws + 1 + i = st.world.rngDraws + i.succ by omega]
      simp only [h]
    · have h : ∀ i : Nat,
          specBearer ueDevices (u + 1 + i) (toUInt16 (st.dlPort + 1 + 1 + (i : Int)))
              (toUInt16 (st.ulPort + 1 + 1 + (i : Int))) =
            specBearer ueDevices (u + i.succ) (toUInt16 (st.dlPort + 1 + ((i.succ : Nat) : Int)))
              (toUInt16 (st.ulPort + 1 + ((i.succ : Nat) : Int))) := by
        intro i
        rw [show u + 1 + i = u + i.succ by omega,
          show st.dlPort + 1 + 1 + (i : Int) = st.dlPort + 1 + ((i.succ : Nat) : Int) by
            push_cast; ring,
          show st.ulPort + 1 + 1 + (i : Int) = st.ulPort + 1 + ((i.succ : Nat) : Int) by
            push_cast; ring]
      simp only [h, Function.comp_def]

/-! ## The set-up of `main` -/

/-- The address `main` obtains for the remote host is 1.0.0.2: the second
address assigned from the base 1.0.0.0. -/
theorem setup_remoteHostAddr {D : Type} (fw : Framework) (numberOfUes : Option Int) :
    (setup fw numberOfUes : Setup D).remoteHostAddr = ipv4 1 0 0 2 := by
  simp only [setup, Ipv4AddressHelper.SetBase, Ipv4AddressHelper.Assign,
    Ipv4InterfaceContainer.GetAddress]
  decide

/-- The world after the set-up: the packet gateway, the remote host, the eNodeB
and the UE nodes have been created, and the installer loop has run once per UE
index below `ueNumber`. -/
theorem setup_world {D : Type} (fw : Framework) (numberOfUes : Option Int) :
    (setup fw numberOfUes : Setup D).world =
      { ({} : World D) with
        nextNode := 3 + toUInt32 (CommandLine.Parse numberOfUes 30)
        apps :=
          (List.range (CommandLine.Parse numberOfUes 30).toNat).flatMap (fun i =>
            specApps fw 1 (ipv4 1 0 0 2)
              ((List.range (toUInt32 (CommandLine.Parse numberOfUes 30))).map (fun i => 3 + i)) i
              (toUInt16 (10001 + (i : Int))) (toUInt16 (20001 + (i : Int))))
        bearers :=
          (List.range (CommandLine.Parse numberOfUes 30).toNat).map (fun i =>
            specBearer
              ((List.range (toUInt32 (CommandLine.Parse numberOfUes 30))).map (fun i => 3 + i)) i
              (toUInt16 (10001 + (i : Int))) (toUInt16 (20001 + (i : Int))))
        appStarts :=
          (List.range (CommandLine.Parse numberOfUes 30).toNat).flatMap (fun i =>
            specStarts (4 * i) (fw.startTime i))
        rngDraws := (CommandLine.Parse numberOfUes 30).toNat } := by
  have hloop := installerLoop_eq (D := D) fw 1 (ipv4 1 0 0 2)
    ((List.range (toUInt32 (CommandLine.Parse numberOfUes 30))).map (fun i => 3 + i))
    ((List.range (toUInt32 (CommandLine.Parse numberOfUes 30))).map (fun i => 3 + i))
    (CommandLine.Parse numberOfUes 30) (CommandLine.Parse numberOfUes 30).toNat
    (CommandLine.Parse numberOfUes 30).toNat 0
    ⟨10000, 20000, { ({} : World D) with
      nextNode := 3 + toUInt32 (CommandLine.Parse numberOfUes 30) }⟩ (by simp) (le_refl _)
  have haddr : Ipv4InterfaceContainer.GetAddress
      ((Ipv4AddressHelper.SetBase (ipv4 1 0 0 0) (ipv4 255 0 0 0)).Assign [0, 1]).1 1 =
      ipv4 1 0 0 2 := by
    simp only [Ipv4AddressHelper.SetBase, Ipv4AddressHelper.Assign,
      Ipv4InterfaceContainer.GetAddress]
    decide
  have hsetup : (setup fw numberOfUes : Setup D).world =
      (installerLoop fw 1 (ipv4 1 0 0 2)
        ((List.range (toUInt32 (CommandLine.Parse numberOfUes 30))).map (fun i => 3 + i))
        ((List.range (toUInt32 (CommandLine.Parse numberOfUes 30))).map (fun i => 3 + i))
        (CommandLine.Parse numberOfUes 30) (CommandLine.Parse numberOfUes 30).toNat
        ((0 : Nat) : Int)
        ⟨10000, 20000, { ({} : World D) with
          nextNode := 3 + toUInt32 (CommandLine.Parse numberOfUes 30) }⟩).world := by
    rfl
  rw [hsetup, hloop]
  simp only [World.mk.injEq, true_and, List.nil_append, List.length_nil, Nat.zero_add, and_true]
  have hd : ∀ i : Nat, (10000 : Int) + 1 + (i : Int) = 10001 + (i : Int) := fun i => by ring
  have hu : ∀ i : Nat, (20000 : Int) + 1 + (i : Int) = 20001 + (i : Int) := fun i => by ring
  simp only [hd, hu, and_self]

/-! ## The whole run of `main` -/

/-- Inserting an event makes the pending list one longer. -/
theorem insertEvent_length (e : Event) (l : List Event) :
    (insertEvent e l).length = l.length + 1 := by
  induction l with
  | nil => rfl
  | cons x xs ih =>
    by_cases h : e.before x = true
    · simp [insertEvent, h]
    · simp [insertEvent, h, ih]

/-- The simulation part of `main`, started in a world with an idle simulator:
with fuel 301 or more `Simulator::Run` returns, at the stop time, after the
sampler has been called at the 300 multiples of 0.2 s below 60 s; the dataset
created for the sampler holds the points of those calls, in order. -/
theorem simulate_spec {D : Type} (A : Numerics D) (fw : Framework) (w : World D)
    (hnow : w.now = 0) (hstop : w.stopped = false) (huid : w.nextUid = 0)
    (hev : w.events = []) (hcalls : w.calls = []) (fuel : Nat) (hfuel : 301 ≤ fuel) :
    ∃ wf : World D, simulate A fw fuel w = some (w.nextDataset, wf)
      ∧ wf.stopped = true
      ∧ wf.now = simulationTime
      ∧ wf.calls = (List.range 300).map (fun j : Nat => samplingInterval * (j : Int))
      ∧ wf.datasets w.nextDataset =
          (List.range 300).flatMap
            (fun j : Nat => specSamplePoints A fw (samplingInterval * (j : Int)))
      ∧ wf.events =
          [⟨simulationTime, 300, EventImpl.throughputMonitor 0 0 w.nextDataset⟩] := by
  have inv := SamplerInv_zero A fw w hnow hstop huid hev hcalls
  obtain ⟨wf, hrun, h⟩ := Run_of_SamplerInv A fw _ 299 0 _ rfl inv fuel (by omega)
  refine ⟨wf, ?_, h⟩
  simp only [simulate, hrun]
  rfl

/-- The whole of `main`: with fuel 301 or more it returns; the world it leaves
is the one of `simulate_spec` with the plot file written from the dataset. -/
theorem main_spec {D : Type} (A : Numerics D) (fw : Framework) (numberOfUes : Option Int)
    (fuel : Nat) (hfuel : 301 ≤ fuel) :
    ∃ wf : World D,
      main A fw numberOfUes fuel = some (GenerateOutput [0] "FlowVSThroughput_.plt" wf)
      ∧ wf.stopped = true
      ∧ wf.now = simulationTime
      ∧ wf.calls = (List.range 300).map (fun j : Nat => samplingInterval * (j : Int))
      ∧ wf.datasets 0 =
          (List.range 300).flatMap
            (fun j : Nat => specSamplePoints A fw (samplingInterval * (j : Int)))
      ∧ wf.events = [⟨simulationTime, 300, EventImpl.throughputMonitor 0 0 0⟩] := by
  have hw := setup_world (D := D) fw numberOfUes
  obtain ⟨wf, hsim, h⟩ := simulate_spec A fw (setup fw numberOfUes : Setup D).world
    (by rw [hw]) (by rw [hw]) (by rw [hw]) (by rw [hw]) (by rw [hw]) fuel hfuel
  have hds : (setup fw numberOfUes : Setup D).world.nextDataset = 0 := by rw [hw]
  rw [hds] at hsim h
  refine ⟨wf, ?_, h⟩
  simp only [main, hsim]
  rfl

/-- C3: every call of `ThroughputMonitor` schedules exactly one further event,
a call of itself with the same three arguments, 0.2 s after the current time,
whatever the flow statistics are; hence in `main`, which calls the sampler
directly at time 0 and stops the simulation at 60 s, the run returns (for any
fuel from 301 on), the k-th call has happened at time `0.2 s * k` for every
`k < 300`, these are all the calls, every one is before the stop time, and the
event scheduled for 60 s itself is still pending, never run, when the run
stops. -/
theorem ThroughputMonitor_reschedules_every_interval {D : Type} (A : Numerics D)
    (fw : Framework) (fmhelper flowMon DataSet : Nat) (w : World D)
    (numberOfUes : Option Int) (fuel : Nat) (hfuel : 301 ≤ fuel) :
    ((ThroughputMonitor A fw fmhelper flowMon DataSet w).events =
        insertEvent
          ⟨w.now + 200000000, w.nextUid, EventImpl.throughputMonitor fmhelper flowMon DataSet⟩
          w.events
      ∧ (ThroughputMonitor A fw fmhelper flowMon DataSet w).events.length = w.events.length + 1)
    ∧ ∃ wf : World D, main A fw numberOfUes fuel = some wf
        ∧ wf.calls = (List.range 300).map (fun k : Nat => 200000000 * (k : Int))
        ∧ (∀ t ∈ wf.calls, t < 60000000000)
        ∧ wf.stopped = true
        ∧ wf.now = 60000000000
        ∧ wf.events = [⟨60000000000, 300, EventImpl.throughputMonitor 0 0 0⟩] := by
  refine ⟨?_, ?_⟩
  · rw [ThroughputMonitor_eq]
    exact ⟨rfl, insertEvent_length _ _⟩
  · obtain ⟨wf, hmain, hstop, hnow, hcalls, -, hev⟩ := main_spec A fw numberOfUes fuel hfuel
    refine ⟨_, hmain, hcalls, ?_, hstop, hnow, hev⟩
    intro t ht
    have ht2 : t ∈ (GenerateOutput [0] "FlowVSThroughput_.plt" wf).calls := ht
    simp only [GenerateOutput, writeFile, hcalls, List.mem_map, List.mem_range,
      samplingInterval] at ht2
    obtain ⟨k, hk, rfl⟩ := ht2
    show (200000000 : Int) * (k : Int) < 60000000000
    omega

/-- C4: the dataset that `main` adds to the plot and renders after the run
holds every point the calls of `ThroughputMonitor` appended during the run, in
the order they were appended: the plot file holds one dataset, whose points are
those of the call at time 0, then those of the call at 0.2 s, and so on up to
the last call, and they are the content of the data the sampler added to. -/
theorem main_plots_sampled_points {D : Type} (A : Numerics D) (fw : Framework)
    (numberOfUes : Option Int) (fuel : Nat) (hfuel : 301 ≤ fuel) :
    ∃ wf : World D, main A fw numberOfUes fuel = some wf
      ∧ fileContent "FlowVSThroughput_.plt" wf =
          some (FileContent.plot
            [(List.range 300).flatMap
              (fun k : Nat => specSamplePoints A fw (200000000 * (k : Int)))])
      ∧ fileContent "FlowVSThroughput_.plt" wf = some (FileContent.plot [wf.datasets 0]) := by
  obtain ⟨wf, hmain, -, -, -, hdata, -⟩ := main_spec A fw numberOfUes fuel hfuel
  refine ⟨_, hmain, ?_, ?_⟩
  · simp only [GenerateOutput, writeFile, fileContent, List.filter_append, List.map_cons,
      List.map_nil, hdata]
    simp [samplingInterval]
  · simp [GenerateOutput, writeFile, fileContent, List.filter_append]

/-! ## Lists built by a loop over the indices -/

/-- The length of a list made of four items per index. -/
theorem length_flatMap_range_four {α : Type} (f : Nat → List α) (hlen : ∀ i, (f i).length = 4)
    (n : Nat) : ((List.range n).flatMap f).length = 4 * n := by
  induction n with
  | zero => rfl
  | succ n ih =>
    rw [List.range_succ, List.flatMap_append, List.length_append, ih]
    simp [hlen]
    omega

/-- In a list made of four items per index, the items of index `u` sit at the
positions `4 * u`, ..., `4 * u + 3`. -/
theorem getElem?_flatMap_range_four {α : Type} (f : Nat → List α)
    (hlen : ∀ i, (f i).length = 4) (n u j : Nat) (hu : u < n) (hj : j < 4) :
    ((List.range n).flatMap f)[4 * u + j]? = (f u)[j]? := by
  induction n with
  | zero => omega
  | succ n ih =>
    rw [List.range_succ, List.flatMap_append]
    have hl := length_flatMap_range_four f hlen n
    by_cases h : u < n
    · rw [List.getElem?_append_left (by omega)]
      exact ih h
    · have hun : u = n := by omega
      subst hun
      rw [List.getElem?_append_right (by omega), hl]
      simp

/-- Reading a container filled with consecutive node ids. -/
theorem Get_consecutive (base n i : Nat) (h : i < n) :
    NodeContainer.Get ((List.range n).map (fun k => base + k)) i = base + i := by
  simp [NodeContainer.Get, List.getD, List.getElem?_map, List.getElem?_range h]

/-- Among the first `n` indices exactly one is `u`, when `u < n`. -/
theorem filter_range_eq (n u : Nat) (h : u < n) (p : Nat → Bool)
    (hp : ∀ i, i < n → (p i = true ↔ i = u)) : (List.range n).filter p = [u] := by
  have h1 : (List.range n).filter p = (List.range n).filter (fun i => decide (i = u)) := by
    apply List.filter_congr
    intro i hi
    have := hp i (List.mem_range.mp hi)
    by_cases hiu : i = u
    · have ht : p i = true := this.mpr hiu
      rw [ht]
      simp [hiu]
    · have hf : p i = false := by
        cases hpi : p i
        · rfl
        · exact absurd (this.mp hpi) hiu
      simp [hiu, hf]
  rw [h1, List.filter_eq, List.count_eq_one_of_mem (List.nodup_range n) (List.mem_range.mpr h)]
  rfl

/-! ## `main` creates the nodes and runs the installer once per UE -/

/-- C5: for every non-negative value N of the `numberOfUes` option (N is 30
when the flag is not given), `main` creates exactly one remote-host node, one
eNodeB node and N UE nodes, all distinct, and the body of the installer loop
runs exactly N times, once for each UE index 0..N-1 in order: the bearers it
activates are those of the UE devices 0, ..., N-1, it draws N start times and
installs 4N applications, and with any fuel of at least N the loop ends by its
own test in the same state. -/
theorem main_creates_nodes_and_installs_per_ue {D : Type} (fw : Framework)
    (numberOfUes : Option Int) (h0 : 0 ≤ CommandLine.Parse numberOfUes 30)
    (hmax : CommandLine.Parse numberOfUes 30 < 2147483648) :
    (setup fw none : Setup D).ueNumber = 30
      ∧ (setup fw numberOfUes : Setup D).ueNumber = CommandLine.Parse numberOfUes 30
      ∧ (setup fw numberOfUes : Setup D).remoteHostContainer.length = 1
      ∧ (setup fw numberOfUes : Setup D).enbNodes.length = 1
      ∧ (setup fw numberOfUes : Setup D).ueNodes.length =
          (CommandLine.Parse numberOfUes 30).toNat
      ∧ ((setup fw numberOfUes : Setup D).remoteHostContainer ++
          (setup fw numberOfUes : Setup D).enbNodes ++
          (setup fw numberOfUes : Setup D).ueNodes).Nodup
      ∧ (setup fw numberOfUes : Setup D).world.bearers.map (fun b => b.ueDevice) =
          (List.range (CommandLine.Parse numberOfUes 30).toNat).map
            (fun u => NodeContainer.Get (setup fw numberOfUes : Setup D).ueDevices u)
      ∧ (setup fw numberOfUes : Setup D).world.rngDraws =
          (CommandLine.Parse numberOfUes 30).toNat
      ∧ (setup fw numberOfUes : Setup D).world.apps.length =
          4 * (CommandLine.Parse numberOfUes 30).toNat
      ∧ ∀ fuel : Nat, (CommandLine.Parse numberOfUes 30).toNat ≤ fuel →
          (installerLoop fw (setup fw numberOfUes : Setup D).remoteHost
            (setup fw numberOfUes : Setup D).remoteHostAddr
            (setup fw numberOfUes : Setup D).ueNodes
            (setup fw numberOfUes : Setup D).ueDevices
            (setup fw numberOfUes : Setup D).ueNumber fuel 0
            ⟨10000, 20000,
              { ({} : World D) with
                nextNode := 3 + toUInt32 (CommandLine.Parse numberOfUes 30) }⟩).world =
          (setup fw numberOfUes : Setup D).world := by
  have hN : toUInt32 (CommandLine.Parse numberOfUes 30) =
      (CommandLine.Parse numberOfUes 30).toNat := by
    unfold toUInt32
    rw [Int.emod_eq_of_lt h0 (by omega)]
  have hnodes : (setup fw numberOfUes : Setup D).ueNodes =
      (List.range (CommandLine.Parse numberOfUes 30).toNat).map (fun i => 3 + i) := by
    rw [← hN]
    rfl
  have hdev : (setup fw numberOfUes : Setup D).ueDevices =
      (List.range (CommandLine.Parse numberOfUes 30).toNat).map (fun i => 3 + i) := by
    rw [← hN]
    rfl
  have hrh : (setup fw numberOfUes : Setup D).remoteHostContainer = [1] := rfl
  have henb : (setup fw numberOfUes : Setup D).enbNodes = [2] := rfl
  refine ⟨rfl, rfl, by rw [hrh]; rfl, by rw [henb]; rfl, by rw [hnodes]; simp, ?_, ?_, ?_, ?_, ?_⟩
  · rw [hrh, henb, hnodes]
    show (1 :: 2 :: (List.range (CommandLine.Parse numberOfUes 30).toNat).map
      (fun i => 3 + i)).Nodup
    simp only [List.nodup_cons, List.mem_cons, List.mem_map, List.mem_range, not_or,
      not_exists, not_and]
    refine ⟨⟨by decide, fun i _ h => ?_⟩, ⟨fun i _ h => ?_, ?_⟩⟩
    · have h1 : (3 + i : Nat) = 1 := h
      omega
    · have h2 : (3 + i : Nat) = 2 := h
      omega
    exact (List.nodup_range _).map (fun a b hab => by simpa using hab)
  · rw [setup_world, hdev, hN]
    simp only [List.map_map]
    rfl
  · rw [setup_world]
  · rw [setup_world]
    simp only
    rw [length_flatMap_range_four _ (fun i => specApps_length _ _ _ _ _ _ _)]
  · intro fuel hfuel
    have hloop := installerLoop_eq (D := D) fw (setup fw numberOfUes : Setup D).remoteHost
      (setup fw numberOfUes : Setup D).remoteHostAddr
      (setup fw numberOfUes : Setup D).ueNodes
      (setup fw numberOfUes : Setup D).ueDevices
      (setup fw numberOfUes : Setup D).ueNumber (CommandLine.Parse numberOfUes 30).toNat
    have hu : ((setup fw numberOfUes : Setup D).ueNumber - ((0 : Nat) : Int)).toNat =
        (CommandLine.Parse numberOfUes 30).toNat := by
      show (CommandLine.Parse numberOfUes 30 - ((0 : Nat) : Int)).toNat = _
      simp
    have h1 := hloop fuel 0 ⟨10000, 20000,
      { ({} : World D) with
        nextNode := 3 + toUInt32 (CommandLine.Parse numberOfUes 30) }⟩ hu hfuel
    have h2 := hloop (CommandLine.Parse numberOfUes 30).toNat 0 ⟨10000, 20000,
      { ({} : World D) with
        nextNode := 3 + toUInt32 (CommandLine.Parse numberOfUes 30) }⟩ hu (le_refl _)
    have h3 : (setup fw numberOfUes : Setup D).world =
        (installerLoop fw (setup fw numberOfUes : Setup D).remoteHost
          (setup fw numberOfUes : Setup D).remoteHostAddr
          (setup fw numberOfUes : Setup D).ueNodes
          (setup fw numberOfUes : Setup D).ueDevices
          (setup fw numberOfUes : Setup D).ueNumber (CommandLine.Parse numberOfUes 30).toNat
          ((0 : Nat) : Int)
          ⟨10000, 20000,
            { ({} : World D) with
              nextNode := 3 + toUInt32 (CommandLine.Parse numberOfUes 30) }⟩).world := rfl
    rw [h3, h2]
    exact congrArg InstallerLoop.world h1

/-! ## What the installer does for one UE -/

/-- The conversion to 16 bits leaves a value below 2^16 as it is. -/
theorem toUInt16_of_lt (n : Nat) (h : n < 65536) : toUInt16 (n : Int) = n := by
  unfold toUInt16
  omega

/-- The applications after the set-up: four per UE index, on the 16-bit values
of the ports `10001 + u` and `20001 + u`. -/
theorem setup_apps {D : Type} (fw : Framework) (numberOfUes : Option Int) :
    (setup fw numberOfUes : Setup D).world.apps =
      (List.range (CommandLine.Parse numberOfUes 30).toNat).flatMap (fun i =>
        specApps fw (setup fw numberOfUes : Setup D).remoteHost
          (setup fw numberOfUes : Setup D).remoteHostAddr
          (setup fw numberOfUes : Setup D).ueNodes i (toUInt16 (10001 + (i : Int)))
          (toUInt16 (20001 + (i : Int)))) := by
  rw [setup_world]
  rfl

/-- The port counters after the set-up: each went up by one per pass of the
installer loop. -/
theorem setup_ports {D : Type} (fw : Framework) (numberOfUes : Option Int) :
    (setup fw numberOfUes : Setup D).dlPort =
        10000 + ((CommandLine.Parse numberOfUes 30).toNat : Int)
      ∧ (setup fw numberOfUes : Setup D).ulPort =
        20000 + ((CommandLine.Parse numberOfUes 30).toNat : Int) := by
  have hloop := installerLoop_eq (D := D) fw 1 (ipv4 1 0 0 2)
    ((List.range (toUInt32 (CommandLine.Parse numberOfUes 30))).map (fun i => 3 + i))
    ((List.range (toUInt32 (CommandLine.Parse numberOfUes 30))).map (fun i => 3 + i))
    (CommandLine.Parse numberOfUes 30) (CommandLine.Parse numberOfUes 30).toNat
    (CommandLine.Parse numberOfUes 30).toNat 0
    ⟨10000, 20000, { ({} : World D) with
      nextNode := 3 + toUInt32 (CommandLine.Parse numberOfUes 30) }⟩ (by simp) (le_refl _)
  exact ⟨congrArg InstallerLoop.dlPort hloop, congrArg InstallerLoop.ulPort hloop⟩

/-- The applications of the UE index `u` after the set-up, one by one. -/
theorem setup_apps_getElem? {D : Type} (fw : Framework) (numberOfUes : Option Int)
    (u j : Nat) (hu : (u : Int) < CommandLine.Parse numberOfUes 30) (hj : j < 4) :
    (setup fw numberOfUes : Setup D).world.apps[4 * u + j]? =
      (specApps fw (setup fw numberOfUes : Setup D).remoteHost
        (setup fw numberOfUes : Setup D).remoteHostAddr
        (setup fw numberOfUes : Setup D).ueNodes u (toUInt16 (10001 + (u : Int)))
        (toUInt16 (20001 + (u : Int))))[j]? := by
  rw [setup_apps]
  exact getElem?_flatMap_range_four _ (fun i => specApps_length _ _ _ _ _ _ _) _ u j
    (by omega) hj

/-- The bearers after the set-up: one per UE index, on the device of that UE. -/
theorem setup_bearers {D : Type} (fw : Framework) (numberOfUes : Option Int)
    (h0 : 0 ≤ CommandLine.Parse numberOfUes 30)
    (hmax : CommandLine.Parse numberOfUes 30 < 2147483648) :
    (setup fw numberOfUes : Setup D).world.bearers =
      (List.range (CommandLine.Parse numberOfUes 30).toNat).map (fun i =>
        (⟨3 + i, EpsBearer.GBR_CONV_VOICE,
          [{ localPortStart := toUInt16 (10001 + (i : Int)),
             localPortEnd := toUInt16 (10001 + (i : Int)) },
           { remotePortStart := toUInt16 (20001 + (i : Int)),
             remotePortEnd := toUInt16 (20001 + (i : Int)) }]⟩ :
          BearerActivation)) := by
  have hN : toUInt32 (CommandLine.Parse numberOfUes 30) =
      (CommandLine.Parse numberOfUes 30).toNat := by
    unfold toUInt32
    rw [Int.emod_eq_of_lt h0 (by omega)]
  rw [setup_world, hN]
  apply List.map_congr_left
  intro i hi
  rw [specBearer, Get_consecutive 3 _ i (List.mem_range.mp hi)]

/-- The devices of the UEs: the device of index `u` sits on node `3 + u`. -/
theorem setup_ueDevices_Get {D : Type} (fw : Framework) (numberOfUes : Option Int)
    (h0 : 0 ≤ CommandLine.Parse numberOfUes 30)
    (hmax : CommandLine.Parse numberOfUes 30 < 2147483648) (u : Nat)
    (hu : (u : Int) < CommandLine.Parse numberOfUes 30) :
    NodeContainer.Get (setup fw numberOfUes : Setup D).ueDevices u = 3 + u := by
  have hN : toUInt32 (CommandLine.Parse numberOfUes 30) =
      (CommandLine.Parse numberOfUes 30).toNat := by
    unfold toUInt32
    rw [Int.emod_eq_of_lt h0 (by omega)]
  have hdev : (setup fw numberOfUes : Setup D).ueDevices =
      (List.range (CommandLine.Parse numberOfUes 30).toNat).map (fun i => 3 + i) := by
    rw [← hN]
    rfl
  rw [hdev, Get_consecutive 3 _ u (by omega)]

/-- C8: for every UE index u below N (N non-negative and at most 2^31 - 1 -
20000, the range in which the `int` port counters do not overflow) the
installer loop creates exactly two client and two server applications, the
applications 4u to 4u+3 of the 4N installed: a downlink pair on one port
(client on the remote host sending to the address of UE u, sink on the node of
UE u) and an uplink pair on one port (client on the node of UE u sending to
the remote host's address, sink on the remote host); it activates exactly one
dedicated bearer on the device of UE u, whose template holds exactly two
filters, one with the local port range `[dlPort, dlPort]` and one with the
remote port range `[ulPort, ulPort]`; and the four applications all get one
start time, the u-th value drawn.  The port of the downlink pair and of the
first filter is the 16-bit value of `dlPort = 10001 + u`, the port of the
uplink pair and of the second filter the 16-bit value of `ulPort = 20001 + u`;
below 45535 UEs these are `10001 + u` and `20001 + u` themselves. -/
theorem installer_pairs_bearer_and_start_time {D : Type} (fw : Framework)
    (numberOfUes : Option Int) (h0 : 0 ≤ CommandLine.Parse numberOfUes 30)
    (hmax : CommandLine.Parse numberOfUes 30 ≤ 2147463647) (u : Nat)
    (hu : (u : Int) < CommandLine.Parse numberOfUes 30) :
    (setup fw numberOfUes : Setup D).world.apps[4 * u]? =
        some ⟨AppKind.udpClient (fw.ueAddress u) (toUInt16 (10001 + (u : Int))),
          (setup fw numberOfUes : Setup D).remoteHost⟩
      ∧ (setup fw numberOfUes : Setup D).world.apps[4 * u + 1]? =
        some ⟨AppKind.packetSink Ipv4Address.GetAny (toUInt16 (10001 + (u : Int))),
          NodeContainer.Get (setup fw numberOfUes : Setup D).ueNodes u⟩
      ∧ (setup fw numberOfUes : Setup D).world.apps[4 * u + 2]? =
        some ⟨AppKind.udpClient (setup fw numberOfUes : Setup D).remoteHostAddr
          (toUInt16 (20001 + (u : Int))),
          NodeContainer.Get (setup fw numberOfUes : Setup D).ueNodes u⟩
      ∧ (setup fw numberOfUes : Setup D).world.apps[4 * u + 3]? =
        some ⟨AppKind.packetSink Ipv4Address.GetAny (toUInt16 (20001 + (u : Int))),
          (setup fw numberOfUes : Setup D).remoteHost⟩
      ∧ (setup fw numberOfUes : Setup D).world.apps.length =
        4 * (CommandLine.Parse numberOfUes 30).toNat
      ∧ (setup fw numberOfUes : Setup D).world.bearers.filter
          (fun b => decide
            (b.ueDevice = NodeContainer.Get (setup fw numberOfUes : Setup D).ueDevices u)) =
        [⟨NodeContainer.Get (setup fw numberOfUes : Setup D).ueDevices u,
          EpsBearer.GBR_CONV_VOICE,
          [{ localPortStart := toUInt16 (10001 + (u : Int)),
             localPortEnd := toUInt16 (10001 + (u : Int)) },
           { remotePortStart := toUInt16 (20001 + (u : Int)),
             remotePortEnd := toUInt16 (20001 + (u : Int)) }]⟩]
      ∧ (∀ j : Nat, j < 4 →
          (4 * u + j, fw.startTime u) ∈ (setup fw numberOfUes : Setup D).world.appStarts)
      ∧ (∀ (a : Nat) (t : Time), (a, t) ∈ (setup fw numberOfUes : Setup D).world.appStarts →
          4 * u ≤ a → a < 4 * u + 4 → t = fw.startTime u)
      ∧ (u < 45535 →
          toUInt16 (10001 + (u : Int)) = 10001 + u ∧ toUInt16 (20001 + (u : Int)) = 20001 + u) := by
  have hmax2 : CommandLine.Parse numberOfUes 30 < 2147483648 := by omega
  have hun : u < (CommandLine.Parse numberOfUes 30).toNat := by omega
  have hstarts : (setup fw numberOfUes : Setup D).world.appStarts =
      (List.range (CommandLine.Parse numberOfUes 30).toNat).flatMap (fun i =>
        specStarts (4 * i) (fw.startTime i)) := by
    rw [setup_world]
  refine ⟨setup_apps_getElem? fw numberOfUes u 0 hu (by omega),
    setup_apps_getElem? fw numberOfUes u 1 hu (by omega),
    setup_apps_getElem? fw numberOfUes u 2 hu (by omega),
    setup_apps_getElem? fw numberOfUes u 3 hu (by omega), ?_, ?_, ?_, ?_, ?_⟩
  · rw [setup_apps, length_flatMap_range_four _ (fun i => specApps_length _ _ _ _ _ _ _)]
  · rw [setup_bearers fw numberOfUes h0 hmax2, setup_ueDevices_Get fw numberOfUes h0 hmax2 u hu,
      List.filter_map, filter_range_eq _ u hun]
    · rfl
    · intro i _
      simp only [Function.comp, decide_eq_true_eq]
      constructor
      · intro h
        have h3 : (3 + i : Nat) = 3 + u := h
        omega
      · intro h
        rw [h]
  · intro j hj
    rw [hstarts, List.mem_flatMap]
    refine ⟨u, List.mem_range.mpr hun, ?_⟩
    simp only [specStarts, List.mem_cons, Prod.mk.injEq, and_true, List.mem_singleton,
      List.not_mem_nil, or_false]
    omega
  · intro a t hmem hlo hhi
    rw [hstarts, List.mem_flatMap] at hmem
    obtain ⟨i, -, hi⟩ := hmem
    simp only [specStarts, List.mem_cons, Prod.mk.injEq, List.mem_singleton,
      List.not_mem_nil, or_false] at hi
    have hiu : i = u := by omega
    subst hiu
    rcases hi with h | h | h | h <;> exact h.2
  · intro hsmall
    refine ⟨?_, ?_⟩
    · rw [show (10001 : Int) + (u : Int) = ((10001 + u : Nat) : Int) by push_cast; rfl]
      exact toUInt16_of_lt _ (by omega)
    · rw [show (20001 : Int) + (u : Int) = ((20001 + u : Nat) : Int) by push_cast; rfl]
      exact toUInt16_of_lt _ (by omega)

/-! ## The ports -/

/-- The ports the UDP clients send to, after the set-up: for each UE index in
turn, the 16-bit values of `10001 + u` and of `20001 + u`. -/
theorem setup_assignedPorts {D : Type} (fw : Framework) (numberOfUes : Option Int) :
    assignedPorts (setup fw numberOfUes : Setup D).world.apps =
      (List.range (CommandLine.Parse numberOfUes 30).toNat).flatMap
        (fun i => [toUInt16 (10001 + (i : Int)), toUInt16 (20001 + (i : Int))]) := by
  rw [setup_apps]
  generalize (CommandLine.Parse numberOfUes 30).toNat = n
  induction n with
  | zero => rfl
  | succ n ih =>
    rw [List.range_succ, List.flatMap_append, List.flatMap_append]
    unfold assignedPorts at ih ⊢
    rw [List.filterMap_append, ih]
    simp [specApps]

/-- C9, as amended: in the installer loop the ports used for the UE index u, in
the four applications of that UE and in the two filters of its bearer, are the
16-bit values of `dlPort = 10001 + u` and `ulPort = 20001 + u`, which are
`10001 + u` and `20001 + u` themselves for every u below 45535 (N is
non-negative and at most 2^31 - 1 - 20000, the range in which the `int`
counters do not overflow); consequently for every number of UEs N ≤ 10000 the
2N ports assigned over the whole run are pairwise distinct, while for N = 10001
the downlink port of UE 10000 equals the uplink port of UE 0. -/
theorem installer_ports {D : Type} (fw : Framework) (numberOfUes : Option Int)
    (h0 : 0 ≤ CommandLine.Parse numberOfUes 30)
    (hmax : CommandLine.Parse numberOfUes 30 ≤ 2147463647) :
    (∀ u : Nat, (u : Int) < CommandLine.Parse numberOfUes 30 →
        ((setup fw numberOfUes : Setup D).world.apps[4 * u]?).map App.port =
            some (toUInt16 (10001 + (u : Int)))
          ∧ ((setup fw numberOfUes : Setup D).world.apps[4 * u + 1]?).map App.port =
            some (toUInt16 (10001 + (u : Int)))
          ∧ ((setup fw numberOfUes : Setup D).world.apps[4 * u + 2]?).map App.port =
            some (toUInt16 (20001 + (u : Int)))
          ∧ ((setup fw numberOfUes : Setup D).world.apps[4 * u + 3]?).map App.port =
            some (toUInt16 (20001 + (u : Int)))
          ∧ ((setup fw numberOfUes : Setup D).world.bearers[u]?).map (fun b => b.tft) =
            some [{ localPortStart := toUInt16 (10001 + (u : Int)),
                    localPortEnd := toUInt16 (10001 + (u : Int)) },
                  { remotePortStart := toUInt16 (20001 + (u : Int)),
                    remotePortEnd := toUInt16 (20001 + (u : Int)) }])
      ∧ (∀ u : Nat, (u : Int) < CommandLine.Parse numberOfUes 30 → u < 45535 →
        ((setup fw numberOfUes : Setup D).world.apps[4 * u]?).map App.port = some (10001 + u)
          ∧ ((setup fw numberOfUes : Setup D).world.apps[4 * u + 1]?).map App.port =
            some (10001 + u)
          ∧ ((setup fw numberOfUes : Setup D).world.apps[4 * u + 2]?).map App.port =
            some (20001 + u)
          ∧ ((setup fw numberOfUes : Setup D).world.apps[4 * u + 3]?).map App.port =
            some (20001 + u)
          ∧ ((setup fw numberOfUes : Setup D).world.bearers[u]?).map (fun b => b.tft) =
            some [{ localPortStart := 10001 + u, localPortEnd := 10001 + u },
                  { remotePortStart := 20001 + u, remotePortEnd := 20001 + u }])
      ∧ (CommandLine.Parse numberOfUes 30 ≤ 10000 →
          (assignedPorts (setup fw numberOfUes : Setup D).world.apps).Nodup
            ∧ (assignedPorts (setup fw numberOfUes : Setup D).world.apps).length =
              2 * (CommandLine.Parse numberOfUes 30).toNat)
      ∧ (CommandLine.Parse numberOfUes 30 = 10001 →
          ((setup fw numberOfUes : Setup D).world.apps[4 * 10000]?).map App.port = some 20001
            ∧ ((setup fw numberOfUes : Setup D).world.apps[4 * 0 + 2]?).map App.port =
              some 20001) := by
  have hmax2 : CommandLine.Parse numberOfUes 30 < 2147483648 := by omega
  have hgen : ∀ u : Nat, (u : Int) < CommandLine.Parse numberOfUes 30 →
      ((setup fw numberOfUes : Setup D).world.apps[4 * u]?).map App.port =
          some (toUInt16 (10001 + (u : Int)))
        ∧ ((setup fw numberOfUes : Setup D).world.apps[4 * u + 1]?).map App.port =
          some (toUInt16 (10001 + (u : Int)))
        ∧ ((setup fw numberOfUes : Setup D).world.apps[4 * u + 2]?).map App.port =
          some (toUInt16 (20001 + (u : Int)))
        ∧ ((setup fw numberOfUes : Setup D).world.apps[4 * u + 3]?).map App.port =
          some (toUInt16 (20001 + (u : Int)))
        ∧ ((setup fw numberOfUes : Setup D).world.bearers[u]?).map (fun b => b.tft) =
          some [{ localPortStart := toUInt16 (10001 + (u : Int)),
                  localPortEnd := toUInt16 (10001 + (u : Int)) },
                { remotePortStart := toUInt16 (20001 + (u : Int)),
                  remotePortEnd := toUInt16 (20001 + (u : Int)) }] := by
    intro u hu
    refine ⟨?_, ?_, ?_, ?_, ?_⟩
    · rw [show 4 * u = 4 * u + 0 from rfl, setup_apps_getElem? fw numberOfUes u 0 hu (by omega)]
      rfl
    · rw [setup_apps_getElem? fw numberOfUes u 1 hu (by omega)]
      rfl
    · rw [setup_apps_getElem? fw numberOfUes u 2 hu (by omega)]
      rfl
    · rw [setup_apps_getElem? fw numberOfUes u 3 hu (by omega)]
      rfl
    · rw [setup_bearers fw numberOfUes h0 hmax2, List.getElem?_map,
        List.getElem?_range (by omega)]
      rfl
  have hdl : ∀ u : Nat, u < 55535 → toUInt16 (10001 + (u : Int)) = 10001 + u := by
    intro u hu
    rw [show (10001 : Int) + (u : Int) = ((10001 + u : Nat) : Int) by push_cast; rfl]
    exact toUInt16_of_lt _ (by omega)
  have hul : ∀ u : Nat, u < 45535 → toUInt16 (20001 + (u : Int)) = 20001 + u := by
    intro u hu
    rw [show (20001 : Int) + (u : Int) = ((20001 + u : Nat) : Int) by push_cast; rfl]
    exact toUInt16_of_lt _ (by omega)
  refine ⟨hgen, ?_, ?_, ?_⟩
  · intro u hu hsmall
    have h := hgen u hu
    rw [hdl u (by omega), hul u hsmall] at h
    exact h
  · intro hN
    rw [setup_assignedPorts]
    have hlist : (List.range (CommandLine.Parse numberOfUes 30).toNat).flatMap
        (fun i => [toUInt16 (10001 + (i : Int)), toUInt16 (20001 + (i : Int))]) =
        (List.range (CommandLine.Parse numberOfUes 30).toNat).flatMap
          (fun i => [10001 + i, 20001 + i]) := by
      apply List.flatMap_congr
      intro i hi
      have hi2 := List.mem_range.mp hi
      rw [hdl i (by omega), hul i (by omega)]
    rw [hlist]
    refine ⟨?_, ?_⟩
    · rw [List.nodup_flatMap]
      refine ⟨?_, ?_⟩
      · intro i _
        simp
      · refine (List.nodup_range _).imp_of_mem ?_
        intro i j hi hj hij
        have hi2 := List.mem_range.mp hi
        have hj2 := List.mem_range.mp hj
        simp only [Function.onFun, List.disjoint_cons_left, List.mem_cons, List.mem_singleton,
          List.not_mem_nil, or_false, not_or, List.disjoint_nil_left, and_true]
        refine ⟨⟨?_, ?_⟩, ⟨?_, ?_⟩⟩ <;> omega
    · generalize (CommandLine.Parse numberOfUes 30).toNat = n
      induction n with
      | zero => rfl
      | succ n ih =>
        rw [List.range_succ, List.flatMap_append, List.length_append, ih]
        simp
        omega
  · intro hN
    have h1 := (hgen 10000 (by omega)).1
    have h2 := (hgen 0 (by omega)).2.2.1
    rw [hdl 10000 (by omega)] at h1
    rw [hul 0 (by omega)] at h2
    exact ⟨h1, h2⟩

/-! ## Which flows are sampled -/

/-- C10: the fixed source address 1.0.0.2 that `ThroughputMonitor` filters on
is `remoteHostAddr`, the address `main` obtains for the remote host (the second
address assigned from the base 1.0.0.0); hence a call of the sampler appends
the points of exactly the flows whose source address is the remote host's, that
is the flows of the downlink clients, which are the clients installed on the
remote host; and, the UE addresses lying in the network that `main` routes
from the remote host towards the UEs (7.0.0.0 with mask 255.0.0.0), no flow
whose source address is a UE's is sampled. -/
theorem sampler_selects_remote_host_flows {D : Type} (A : Numerics D) (fw : Framework)
    (numberOfUes : Option Int) (h0 : 0 ≤ CommandLine.Parse numberOfUes 30)
    (hmax : CommandLine.Parse numberOfUes 30 < 2147483648)
    (hUe : ∀ u : Nat, (u : Int) < CommandLine.Parse numberOfUes 30 →
      ∃ r ∈ (setup fw numberOfUes : Setup D).remoteHostStaticRouting,
        fw.ueAddress u &&& r.mask = r.network) :
    (setup fw numberOfUes : Setup D).remoteHostAddr = ipv4 1 0 0 2
      ∧ (∀ (fmhelper flowMon DataSet : Nat) (w : World D),
          (ThroughputMonitor A fw fmhelper flowMon DataSet w).datasets DataSet =
            w.datasets DataSet ++
              ((fw.GetFlowStats w.now).entries.filter
                  (fun e => decide ((fw.FindFlow e.1).sourceAddress =
                    (setup fw numberOfUes : Setup D).remoteHostAddr))).map
                (fun e => (A.GetSeconds w.now, specThroughput A e.2)))
      ∧ (∀ (e : FlowId × FlowStats) (u : Nat), (u : Int) < CommandLine.Parse numberOfUes 30 →
          (fw.FindFlow e.1).sourceAddress = fw.ueAddress u → specMatches fw e = false)
      ∧ (∀ u : Nat, (u : Int) < CommandLine.Parse numberOfUes 30 →
          ((setup fw numberOfUes : Setup D).world.apps[4 * u]?).map (fun a => a.node) =
              some (setup fw numberOfUes : Setup D).remoteHost
            ∧ ∃ ue : NodeId, ue ≠ (setup fw numberOfUes : Setup D).remoteHost
              ∧ ((setup fw numberOfUes : Setup D).world.apps[4 * u + 2]?).map (fun a => a.node) =
                some ue) := by
  have haddr := setup_remoteHostAddr (D := D) fw numberOfUes
  have hN : toUInt32 (CommandLine.Parse numberOfUes 30) =
      (CommandLine.Parse numberOfUes 30).toNat := by
    unfold toUInt32
    rw [Int.emod_eq_of_lt h0 (by omega)]
  have hnodes : (setup fw numberOfUes : Setup D).ueNodes =
      (List.range (CommandLine.Parse numberOfUes 30).toNat).map (fun i => 3 + i) := by
    rw [← hN]
    rfl
  have hget : ∀ u : Nat, (u : Int) < CommandLine.Parse numberOfUes 30 → ∀ j : Nat, j < 4 →
      (setup fw numberOfUes : Setup D).world.apps[4 * u + j]? =
        (specApps fw (setup fw numberOfUes : Setup D).remoteHost
          (setup fw numberOfUes : Setup D).remoteHostAddr
          (setup fw numberOfUes : Setup D).ueNodes u (toUInt16 (10001 + (u : Int)))
          (toUInt16 (20001 + (u : Int))))[j]? := by
    intro u hu j hj
    rw [setup_apps]
    exact getElem?_flatMap_range_four _ (fun i => specApps_length _ _ _ _ _ _ _) _ u j
      (by omega) hj
  refine ⟨haddr, ?_, ?_, ?_⟩
  · intro fmhelper flowMon DataSet w
    rw [ThroughputMonitor_eq, haddr]
    simp only [if_true, specSamplePoints]
    rfl
  · intro e u hu hsrc
    obtain ⟨r, hr, h7⟩ := hUe u hu
    have hr2 : r = ⟨ipv4 7 0 0 0, ipv4 255 0 0 0, 1⟩ := by
      have hr3 : r ∈ [(⟨ipv4 7 0 0 0, ipv4 255 0 0 0, 1⟩ : NetworkRoute)] := hr
      simpa using hr3
    subst hr2
    unfold specMatches
    rw [hsrc, decide_eq_false_iff_not]
    intro heq
    rw [heq] at h7
    revert h7
    decide
  · intro u hu
    refine ⟨?_, 3 + u, ?_, ?_⟩
    · rw [show 4 * u = 4 * u + 0 from rfl, hget u hu 0 (by omega)]
      rfl
    · intro h
      have h1 : (3 + u : Nat) = 1 := h
      omega
    · rw [hget u hu 2 (by omega), hnodes]
      simp only [specApps, List.getElem?_cons_succ, List.getElem?_cons_zero, Option.map_some']
      rw [Get_consecutive 3 _ u (by omega)]

/-! ## No guard on the division -/

/-- C6, as amended: `ThroughputMonitor` has no error path.  In any arithmetic
in which a finite value minus itself is zero, a division by zero gives a NaN or
an infinity, and a NaN or an infinity divided by anything stays one (all three
hold of IEEE-754), for a flow of the statistics map whose source address is
1.0.0.2 and whose `timeLastRxPacket` equals its `timeFirstTxPacket`, the
division is performed with no guard, its result is a NaN or an infinity, the
point with that value is among those the call appends to the dataset, and the
call reschedules itself and serialises the monitor as for any other flow. -/
theorem ThroughputMonitor_divides_by_zero_unguarded {D : Type} (A : Numerics D)
    (hsub : ∀ t : Time, A.sub (A.GetSeconds t) (A.GetSeconds t) = A.ofNat 0)
    (hzero : ∀ x : D, A.isNanOrInf (A.div x (A.ofNat 0)) = true)
    (hprop : ∀ x y : D, A.isNanOrInf x = true → A.isNanOrInf (A.div x y) = true)
    (fw : Framework) (fmhelper flowMon DataSet : Nat) (w : World D)
    (e : FlowId × FlowStats) (he : e ∈ (fw.GetFlowStats w.now).entries)
    (hsrc : (fw.FindFlow e.1).sourceAddress = ipv4 1 0 0 2)
    (htime : e.2.timeLastRxPacket = e.2.timeFirstTxPacket) :
    A.isNanOrInf
        (A.div
          (A.div (A.mul (A.ofNat e.2.rxBytes) (A.ofNat 8))
            (A.sub (A.GetSeconds e.2.timeLastRxPacket) (A.GetSeconds e.2.timeFirstTxPacket)))
          (A.ofNat 1024)) = true
      ∧ (A.GetSeconds w.now,
          A.div
            (A.div (A.mul (A.ofNat e.2.rxBytes) (A.ofNat 8))
              (A.sub (A.GetSeconds e.2.timeLastRxPacket) (A.GetSeconds e.2.timeFirstTxPacket)))
            (A.ofNat 1024)) ∈
        ((ThroughputMonitor A fw fmhelper flowMon DataSet w).datasets DataSet).drop
          (w.datasets DataSet).length
      ∧ (ThroughputMonitor A fw fmhelper flowMon DataSet w).events =
        insertEvent
          ⟨w.now + 200000000, w.nextUid, EventImpl.throughputMonitor fmhelper flowMon DataSet⟩
          w.events
      ∧ (ThroughputMonitor A fw fmhelper flowMon DataSet w).files =
        w.files ++
          [("ThroughputMonitor.xml",
            FileContent.flowMonitorXml (fw.GetFlowStats w.now).entries true true)] := by
  refine ⟨?_, ?_, ?_, ?_⟩
  · rw [htime, hsub]
    exact hprop _ _ (hzero _)
  · rw [ThroughputMonitor_eq]
    simp only [if_true, List.drop_left, specSamplePoints, List.mem_map, List.mem_filter]
    exact ⟨e, ⟨he, by simp [specMatches, hsrc]⟩, rfl⟩
  · rw [ThroughputMonitor_eq]
    rfl
  · rw [ThroughputMonitor_eq]

/-- The executable arithmetic satisfies the three laws the theorem on the
unguarded division asks for. -/
theorem dblNumerics_laws :
    (∀ t : Time, dblNumerics.sub (dblNumerics.GetSeconds t) (dblNumerics.GetSeconds t) =
        dblNumerics.ofNat 0)
      ∧ (∀ x : Dbl, dblNumerics.isNanOrInf (dblNumerics.div x (dblNumerics.ofNat 0)) = true)
      ∧ (∀ x y : Dbl, dblNumerics.isNanOrInf x = true →
          dblNumerics.isNanOrInf (dblNumerics.div x y) = true) := by
  refine ⟨?_, ?_, ?_⟩
  · intro t
    simp [dblNumerics, Dbl.sub]
  · intro x
    cases x with
    | nan => rfl
    | inf s => rfl
    | fin q =>
      by_cases hq : q = 0
      · simp [dblNumerics, Dbl.div, Dbl.isNanOrInf, hq]
      · simp [dblNumerics, Dbl.div, Dbl.isNanOrInf, hq]
  · intro x y hx
    cases x with
    | nan => cases y <;> rfl
    | inf s =>
      cases y with
      | nan => rfl
      | inf t => rfl
      | fin q => rfl
    | fin q => simp [dblNumerics, Dbl.isNanOrInf] at hx

/-! ## The theorems at concrete inputs -/

/-- The claim C6 as the specification states it fails: a flow sent from 1.0.0.2
that has had no packet received (`rxPackets = 0`, `rxBytes = 0`, last reception
at the initial time 0) but was first transmitted at 5 ms gets the throughput
`0 * 8 / (0 - 0.005) / 1024`, a finite zero, neither a NaN nor an infinity. -/
theorem unreceived_flow_throughput_is_finite :
    (unreceivedFramework.GetFlowStats sampleWorld.now).entries = [(1, ⟨5000000, 0, 0, 1, 0⟩)]
      ∧ (unreceivedFramework.FindFlow 1).sourceAddress = ipv4 1 0 0 2
      ∧ (ThroughputMonitor dblNumerics unreceivedFramework 0 0 0 sampleWorld).datasets 0 =
          [(Dbl.fin (1 / 5), Dbl.fin 0)]
      ∧ dblNumerics.isNanOrInf (Dbl.fin 0) = false := by
  refine ⟨rfl, rfl, ?_, rfl⟩
  simp only [ThroughputMonitor, unreceivedFramework, sampleWorld, List.foldl, monitorBody,
    if_true, Gnuplot2dDataset.Add, print, Simulator.Schedule, SerializeToXmlFile, writeFile,
    dblNumerics, Dbl.mul, Dbl.sub, Dbl.div]
  norm_num

/-- The theorem on the unguarded division at a concrete input: flow 4 of the
sample framework, whose last reception is at the time of its first
transmission, with 100 bytes received. -/
theorem ThroughputMonitor_divides_by_zero_unguarded_witness :
    ((4, (⟨7, 7, 100, 1, 1⟩ : FlowStats)) ∈ (sampleFramework.GetFlowStats sampleWorld.now).entries
        ∧ (sampleFramework.FindFlow 4).sourceAddress = ipv4 1 0 0 2)
      ∧ (dblNumerics.isNanOrInf
            (dblNumerics.div
              (dblNumerics.div (dblNumerics.mul (dblNumerics.ofNat 100) (dblNumerics.ofNat 8))
                (dblNumerics.sub (dblNumerics.GetSeconds 7) (dblNumerics.GetSeconds 7)))
              (dblNumerics.ofNat 1024)) = true
          ∧ (dblNumerics.GetSeconds sampleWorld.now,
              dblNumerics.div
                (dblNumerics.div (dblNumerics.mul (dblNumerics.ofNat 100) (dblNumerics.ofNat 8))
                  (dblNumerics.sub (dblNumerics.GetSeconds 7) (dblNumerics.GetSeconds 7)))
                (dblNumerics.ofNat 1024)) ∈
            ((ThroughputMonitor dblNumerics sampleFramework 0 0 0 sampleWorld).datasets 0).drop
              (sampleWorld.datasets 0).length
          ∧ (ThroughputMonitor dblNumerics sampleFramework 0 0 0 sampleWorld).events =
            insertEvent
              ⟨sampleWorld.now + 200000000, sampleWorld.nextUid,
                EventImpl.throughputMonitor 0 0 0⟩ sampleWorld.events
          ∧ (ThroughputMonitor dblNumerics sampleFramework 0 0 0 sampleWorld).files =
            sampleWorld.files ++
              [("ThroughputMonitor.xml",
                FileContent.flowMonitorXml (sampleFramework.GetFlowStats sampleWorld.now).entries
                  true true)]) :=
  ⟨⟨by decide, by decide⟩,
    ThroughputMonitor_divides_by_zero_unguarded dblNumerics dblNumerics_laws.1
      dblNumerics_laws.2.1 dblNumerics_laws.2.2 sampleFramework 0 0 0 sampleWorld
      (4, ⟨7, 7, 100, 1, 1⟩) (by decide) (by decide) rfl⟩

/-- The theorem on the rescheduling at a concrete input: the sample framework,
no flag, fuel 301. -/
theorem ThroughputMonitor_reschedules_every_interval_witness :
    301 ≤ 301
      ∧ (((ThroughputMonitor dblNumerics sampleFramework 0 0 0 sampleWorld).events =
            insertEvent ⟨sampleWorld.now + 200000000, sampleWorld.nextUid,
              EventImpl.throughputMonitor 0 0 0⟩ sampleWorld.events
          ∧ (ThroughputMonitor dblNumerics sampleFramework 0 0 0 sampleWorld).events.length =
            sampleWorld.events.length + 1)
        ∧ ∃ wf : World Dbl, main dblNumerics sampleFramework none 301 = some wf
            ∧ wf.calls = (List.range 300).map (fun k : Nat => 200000000 * (k : Int))
            ∧ (∀ t ∈ wf.calls, t < 60000000000)
            ∧ wf.stopped = true
            ∧ wf.now = 60000000000
            ∧ wf.events = [⟨60000000000, 300, EventImpl.throughputMonitor 0 0 0⟩]) :=
  ⟨by decide,
    ThroughputMonitor_reschedules_every_interval dblNumerics sampleFramework 0 0 0 sampleWorld
      none 301 (by decide)⟩

/-- The theorem on the plotted dataset at a concrete input: the sample
framework, three UEs, fuel 301. -/
theorem main_plots_sampled_points_witness :
    301 ≤ 301
      ∧ ∃ wf : World Dbl, main dblNumerics sampleFramework (some 3) 301 = some wf
          ∧ fileContent "FlowVSThroughput_.plt" wf =
              some (FileContent.plot
                [(List.range 300).flatMap
                  (fun k : Nat =>
                    specSamplePoints dblNumerics sampleFramework (200000000 * (k : Int)))])
          ∧ fileContent "FlowVSThroughput_.plt" wf = some (FileContent.plot [wf.datasets 0]) :=
  ⟨by decide, main_plots_sampled_points dblNumerics sampleFramework (some 3) 301 (by decide)⟩

/-- The theorem on the nodes and the installer at a concrete input: three UEs. -/
theorem main_creates_nodes_and_installs_per_ue_witness :
    ((0 : Int) ≤ CommandLine.Parse (some 3) 30 ∧ CommandLine.Parse (some 3) 30 < 2147483648)
      ∧ (setup sampleFramework (some 3) : Setup Dbl).remoteHostContainer.length = 1
      ∧ (setup sampleFramework (some 3) : Setup Dbl).enbNodes.length = 1
      ∧ (setup sampleFramework (some 3) : Setup Dbl).ueNodes.length = 3
      ∧ (setup sampleFramework (some 3) : Setup Dbl).world.bearers.map (fun b => b.ueDevice) =
          [3, 4, 5]
      ∧ (setup sampleFramework (some 3) : Setup Dbl).world.apps.length = 12 :=
  have h := main_creates_nodes_and_installs_per_ue (D := Dbl) sampleFramework (some 3)
    (by decide) (by decide)
  ⟨⟨by decide, by decide⟩, h.2.2.1, h.2.2.2.1, h.2.2.2.2.1, by decide, h.2.2.2.2.2.2.2.2.1⟩

/-- The theorem on the pairs, the bearer and the start time at a concrete
input: the UE of index 1 among three. -/
theorem installer_pairs_bearer_and_start_time_witness :
    ((0 : Int) ≤ CommandLine.Parse (some 3) 30 ∧ CommandLine.Parse (some 3) 30 ≤ 2147463647
        ∧ ((1 : Nat) : Int) < CommandLine.Parse (some 3) 30)
      ∧ (setup sampleFramework (some 3) : Setup Dbl).world.apps[4 * 1]? =
          some ⟨AppKind.udpClient (ipv4 7 0 0 3) 10002, 1⟩
      ∧ (setup sampleFramework (some 3) : Setup Dbl).world.apps[4 * 1 + 1]? =
          some ⟨AppKind.packetSink (ipv4 0 0 0 0) 10002, 4⟩
      ∧ (setup sampleFramework (some 3) : Setup Dbl).world.apps[4 * 1 + 2]? =
          some ⟨AppKind.udpClient (ipv4 1 0 0 2) 20002, 4⟩
      ∧ (setup sampleFramework (some 3) : Setup Dbl).world.apps[4 * 1 + 3]? =
          some ⟨AppKind.packetSink (ipv4 0 0 0 0) 20002, 1⟩ :=
  have h := installer_pairs_bearer_and_start_time (D := Dbl) sampleFramework (some 3)
    (by decide) (by decide) 1 (by decide)
  ⟨⟨by decide, by decide, by decide⟩, h.1, h.2.1, h.2.2.1, h.2.2.2.1⟩

/-- The claim C9 as stated fails from the UE index 45535 on: with 45536 UEs the
variable `ulPort` is `20001 + 45535 = 65536` in the pass for UE 45535, the last
one, and the port its uplink client sends to, its uplink sink listens on and
its second filter holds is the 16-bit value of that, 0, not 65536. -/
theorem installer_uplink_port_narrowed_at_45535 :
    (setup sampleFramework (some 45536) : Setup Dbl).ulPort = 65536
      ∧ ((setup sampleFramework (some 45536) : Setup Dbl).world.apps[4 * 45535 + 2]?).map
          App.port = some 0
      ∧ ((setup sampleFramework (some 45536) : Setup Dbl).world.apps[4 * 45535 + 3]?).map
          App.port = some 0
      ∧ ((setup sampleFramework (some 45536) : Setup Dbl).world.bearers[45535]?).map
          (fun b => b.tft) =
        some [{ localPortStart := 55536, localPortEnd := 55536 },
              { remotePortStart := 0, remotePortEnd := 0 }]
      ∧ (0 : Nat) ≠ 20001 + 45535 := by
  refine ⟨?_, ?_, ?_, ?_, by decide⟩
  · rw [(setup_ports sampleFramework (some 45536)).2]
    rfl
  · rw [setup_apps_getElem? sampleFramework (some 45536) 45535 2 (by decide) (by decide)]
    rfl
  · rw [setup_apps_getElem? sampleFramework (some 45536) 45535 3 (by decide) (by decide)]
    rfl
  · rw [setup_bearers sampleFramework (some 45536) (by decide) (by decide), List.getElem?_map,
      List.getElem?_range (by decide)]
    rfl

/-- The theorem on the ports at concrete inputs: with three UEs the six ports
are 10001, 20001, 10002, 20002, 10003, 20003, all distinct; with 10001 UEs the
downlink port of UE 10000 is the uplink port of UE 0. -/
theorem installer_ports_witness :
    ((0 : Int) ≤ CommandLine.Parse (some 3) 30 ∧ CommandLine.Parse (some 3) 30 ≤ 2147463647)
      ∧ (assignedPorts (setup sampleFramework (some 3) : Setup Dbl).world.apps).Nodup
      ∧ assignedPorts (setup sampleFramework (some 3) : Setup Dbl).world.apps =
          [10001, 20001, 10002, 20002, 10003, 20003]
      ∧ ((setup sampleFramework (some 3) : Setup Dbl).world.apps[4 * 1 + 2]?).map App.port =
          some 20002
      ∧ ((setup sampleFramework (some 10001) : Setup Dbl).world.apps[4 * 10000]?).map App.port =
          some 20001
      ∧ ((setup sampleFramework (some 10001) : Setup Dbl).world.apps[4 * 0 + 2]?).map App.port =
          some 20001 :=
  have h3 := installer_ports (D := Dbl) sampleFramework (some 3) (by decide) (by decide)
  have hbig := installer_ports (D := Dbl) sampleFramework (some 10001) (by decide) (by decide)
  ⟨⟨by decide, by decide⟩, (h3.2.2.1 (by decide)).1, by decide,
    (h3.2.1 1 (by decide) (by decide)).2.2.1, (hbig.2.2.2 rfl).1, (hbig.2.2.2 rfl).2⟩

/-- The theorem on the sampled flows at a concrete input: the sample framework
with three UEs, whose addresses are 7.0.0.2, 7.0.0.3 and 7.0.0.4. -/
theorem sampler_selects_remote_host_flows_witness :
    ((0 : Int) ≤ CommandLine.Parse (some 3) 30 ∧ CommandLine.Parse (some 3) 30 < 2147483648
        ∧ sampleFramework.ueAddress 0 &&& ipv4 255 0 0 0 = ipv4 7 0 0 0
        ∧ sampleFramework.ueAddress 1 &&& ipv4 255 0 0 0 = ipv4 7 0 0 0
        ∧ sampleFramework.ueAddress 2 &&& ipv4 255 0 0 0 = ipv4 7 0 0 0)
      ∧ (setup sampleFramework (some 3) : Setup Dbl).remoteHostAddr = ipv4 1 0 0 2
      ∧ specMatches sampleFramework (2, ⟨6000000, 0, 0, 3, 0⟩) = false :=
  have h := sampler_selects_remote_host_flows dblNumerics sampleFramework (some 3)
    (by decide) (by decide)
    (fun u hu => by
      have hu3 : u < 3 := by
        have : (u : Int) < 3 := hu
        omega
      refine ⟨⟨ipv4 7 0 0 0, ipv4 255 0 0 0, 1⟩, List.mem_singleton.mpr rfl, ?_⟩
      interval_cases u <;> decide)
  ⟨⟨by decide, by decide, by decide, by decide, by decide⟩, h.1,
    h.2.2.1 (2, ⟨6000000, 0, 0, 3, 0⟩) 0 (by decide) (by decide)⟩

end LteScenario
